import Mathlib

set_option maxRecDepth 1000000

/-!
Shallow embedding of the TRREB RESO sync engine (propertySync.js, mediaSync.js,
fetchFeed.js, db.js, sync.js) and proofs about its windowed ingestion core.

Modelling conventions:
* The time axis is `Int`, measured in hours since 2000-01-01T00:00:00Z (UTC).
  ISO-8601 timestamp strings compare lexicographically exactly as their
  instants compare, and `new Date(s)` comparisons agree with string
  comparisons on such strings, so both are modelled by `Int` order.
  JavaScript `setDate(d ± k)` is `± 24 * k`, `setHours(h, 0, 0, 0)` is
  `24 * (t.fdiv 24) + h` (the process is assumed to run with TZ=UTC).
* A record field that is JavaScript `undefined`/`null` (or, for strings, `""`)
  is `none`; `jsTruthy` mirrors JavaScript truthiness for optional strings.
* The upstream server is a pure oracle: a slice consumes a list of page
  outcomes in order (the real loop requests pages serially at increasing
  `$skip`, so the response sequence determines the run); an exhausted list
  behaves like a server that returns no further records.
* `upsertBatch` returns `data?.length || records.length`; PostgREST echoes one
  row per input row, so the count is modelled as the number of rows sent.
* A thrown JavaScript error is `Except.error`.  Media slice errors carry the
  dedup set at throw time, because the JS `Set` is mutated in place and
  survives a caught exception.
-/

namespace RealEstateSync

/-- JavaScript truthiness of an optional string: `undefined`, `null` and the
empty string are falsy. -/
def jsTruthy : Option String → Bool
  | none => false
  | some s => !s.isEmpty

/-- JavaScript `a || b` on optional timestamps (absent values are falsy). -/
def jsOrTs : Option Int → Option Int → Option Int
  | none, b => b
  | some a, _ => some a

/-- The recurring update `if (!latest || (t && t > latest)) latest = t`. -/
def jsPickLatest : Option Int → Option Int → Option Int
  | cur, none => cur
  | none, some t => some t
  | some c, some t => if c < t then some t else some c

/-- A raw upstream record, restricted to the fields the sync engine reads. -/
structure RawRecord where
  ListingKey : Option String := none
  ResourceRecordKey : Option String := none
  MediaKey : Option String := none
  ModificationTimestamp : Option Int := none
  MediaModificationTimestamp : Option Int := none
  ModifiedOn : Option Int := none
deriving Repr, DecidableEq

/-- Outcome of one `fetchODataPage` call as seen by a slice loop: a page of
records, an error whose message contains `total exceeds 100000`, or any
other (transport) error. -/
inductive PageFetch where
  | ok (value : List RawRecord)
  | capExceeded
  | transportError
deriving Repr, DecidableEq

/-- Records carried by a page outcome (errors carry none). -/
def pageRecords : PageFetch → List RawRecord
  | .ok v => v
  | _ => []

/-- All records of a response sequence. -/
def pagesRecords (pages : List PageFetch) : List RawRecord :=
  pages.foldr (fun p acc => pageRecords p ++ acc) []

/-- Row produced by `mapProperty` — only the fields later read back
(`findLatestTimestamp` probes ModificationTimestamp, ModifiedOn, UpdatedAt,
LastModified; the mapped row has ModificationTimestamp and always has
UpdatedAt = the wall clock at mapping time, while ModifiedOn/LastModified are
absent from it). -/
structure MappedProperty where
  ListingKey : Option String
  ModificationTimestamp : Option Int
  UpdatedAt : Int
deriving Repr, DecidableEq

/-- `mapProperty` restricted to the fields the engine reads back
(`safeDate` normalizes a present ISO string and maps absence to null, which
is the identity on this model). -/
def mapProperty (wallNow : Int) (raw : RawRecord) : MappedProperty :=
  { ListingKey := raw.ListingKey
    ModificationTimestamp := raw.ModificationTimestamp
    UpdatedAt := wallNow }

/-- Row produced by `mapMedia` — only the fields later read back. -/
structure MappedMedia where
  ResourceRecordKey : Option String
  MediaKey : Option String
  MediaModificationTimestamp : Option Int
  ModificationTimestamp : Option Int
  UpdatedAt : Int
deriving Repr, DecidableEq

/-- `mapMedia` restricted to the fields the engine reads back. -/
def mapMedia (wallNow : Int) (raw : RawRecord) : MappedMedia :=
  { ResourceRecordKey := raw.ResourceRecordKey
    MediaKey := raw.MediaKey
    MediaModificationTimestamp := raw.MediaModificationTimestamp
    ModificationTimestamp := raw.ModificationTimestamp
    UpdatedAt := wallNow }

/-! ### lib/utils/fetchFeed.js -/

/-- Outcome of one HTTP attempt inside `ApiClient.fetchWithRetry`. -/
inductive FetchOutcome where
  | success
  | httpError (status : Nat)
  | networkError
deriving Repr, DecidableEq

/-- Whether an attempt returned a 2xx response and parsed. -/
def FetchOutcome.isSuccess : FetchOutcome → Bool
  | .success => true
  | _ => false

/-- Observable trace of `fetchWithRetry`: attempts made, backoff sleeps taken
(in ms, in order), and whether the call ultimately succeeded (`false` means
the last error was rethrown). -/
structure RetryTrace where
  attempts : Nat
  delays : List Nat
  succeeded : Bool
deriving Repr, DecidableEq

/-- The `for (attempt = 1; attempt <= retryAttempts; attempt++)` loop of
`ApiClient.fetchWithRetry`: every caught error is retried (there is no status
code discrimination in the source); a sleep of `retryDelay * 2^(attempt-1)` ms
happens only when `attempt < retryAttempts`. -/
def fetchWithRetryGo (retryDelay : Nat) (responses : Nat → FetchOutcome)
    (attempt : Nat) : Nat → RetryTrace
  | 0 => ⟨0, [], false⟩
  | remaining + 1 =>
    if (responses attempt).isSuccess then ⟨1, [], true⟩
    else if remaining = 0 then ⟨1, [], false⟩
    else
      let rest := fetchWithRetryGo retryDelay responses (attempt + 1) remaining
      ⟨rest.attempts + 1, retryDelay * 2 ^ (attempt - 1) :: rest.delays, rest.succeeded⟩

/-- `ApiClient.fetchWithRetry` with the constructor defaults
`retryAttempts = 3`, `retryDelay = 500` supplied by `fetchODataPage`. -/
def fetchWithRetry (retryAttempts retryDelay : Nat) (responses : Nat → FetchOutcome) :
    RetryTrace :=
  fetchWithRetryGo retryDelay responses 1 retryAttempts

/-- Parsed JSON body of an OData response, before `fetchODataPage` shapes it. -/
structure ODataBody where
  value : Option (List RawRecord)
  odataNextLink : Option String
  odataCount : Option Int
deriving Repr, DecidableEq

/-- The `{ value, next, count }` object returned by `fetchODataPage`. -/
structure ODataPage where
  value : List RawRecord
  next : Option String
  count : Option Int
deriving Repr, DecidableEq

/-- Result shaping at the end of `fetchODataPage`:
`value: data?.value || []`, `next: data?.['@odata.nextLink'] || null`,
`count: data?.['@odata.count'] || null` (JavaScript `||`: an absent member,
an empty-string link and a zero count are all falsy; an array, even empty,
is truthy). -/
def fetchODataPage (data : Option ODataBody) : ODataPage :=
  { value :=
      match data with
      | none => []
      | some d => match d.value with
        | none => []
        | some l => l
    next :=
      match data with
      | none => none
      | some d => match d.odataNextLink with
        | none => none
        | some s => if s.isEmpty then none else some s
    count :=
      match data with
      | none => none
      | some d => match d.odataCount with
        | none => none
        | some n => if n = 0 then none else some n }

/-! ### lib/utils/db.js -/

/-- One row of the `sync_log` table. -/
structure SyncLogRow where
  lastprocessedtimestamp : Int
  updatedat : Int
deriving Repr, DecidableEq

/-- Database-facing state: whether the module-level `supabase` client exists
(set by the startup connection routine) and the persisted `sync_log` rows,
keyed by `resourcetype`. -/
structure DbState where
  supabase : Bool
  sync_log : List (String × SyncLogRow)
deriving Repr, DecidableEq

/-- Errors the db helpers raise. -/
inductive DbError where
  | noClient
deriving Repr, DecidableEq

/-- Insert-or-update of a `sync_log` row on conflict key `resourcetype`. -/
def upsertSyncRow : List (String × SyncLogRow) → String → SyncLogRow →
    List (String × SyncLogRow)
  | [], rt, row => [(rt, row)]
  | (k, r) :: rest, rt, row =>
    if k = rt then (k, row) :: rest else (k, r) :: upsertSyncRow rest rt row

/-- Lookup of a `sync_log` row by `resourcetype`. -/
def getSyncLogRow : List (String × SyncLogRow) → String → Option SyncLogRow
  | [], _ => none
  | (k, r) :: rest, rt => if k = rt then some r else getSyncLogRow rest rt

/-- `updateSyncLog(resourceType, timestamp)`: throws when the client is
missing; returns without writing when the timestamp argument is falsy
(`undefined`, `null` or `""`, all modelled by `none`); otherwise upserts the
row with `updatedat` set to the wall clock. -/
def updateSyncLog (db : DbState) (resourceType : String) (timestamp : Option Int)
    (wallNow : Int) : Except DbError DbState :=
  if !db.supabase then .error .noClient
  else
    match timestamp with
    | none => .ok db
    | some ts =>
      .ok { db with sync_log := upsertSyncRow db.sync_log resourceType ⟨ts, wallNow⟩ }

/-- `getSyncLog(resourceType)`: throws when the client is missing; returns
`data?.lastprocessedtimestamp || null`. -/
def getSyncLog (db : DbState) (resourceType : String) : Except DbError (Option Int) :=
  if !db.supabase then .error .noClient
  else .ok ((getSyncLogRow db.sync_log resourceType).map
    (fun r => r.lastprocessedtimestamp))

/-! ### lib/sync/propertySync.js -/

namespace PropertySync

/-- Mutable locals of `fetchAndUpsertBatchesInternal` while its `while` loop
runs.  `serverCount` is ghost instrumentation: the number of records the
server actually returned so far (sum of page lengths), which the source does
not track separately from `totalFetched`. -/
structure SliceState where
  totalFetched : Nat
  totalUpserted : Nat
  skip : Nat
  latestTimestamp : Option Int
  oldestTimestamp : Option Int
  hitLimit : Bool
  seenListingKeys : List String
  serverCount : Nat
deriving Repr, DecidableEq

/-- Return value of `fetchAndUpsertBatchesInternal` (plus the shared dedup set
it mutated, and the ghost `serverCount`). -/
structure SliceResult where
  totalFetched : Nat
  totalUpserted : Nat
  totalUnique : Nat
  latestTimestamp : Option Int
  oldestTimestamp : Option Int
  hitLimit : Bool
  seenListingKeys : List String
  serverCount : Nat
deriving Repr, DecidableEq

/-- Errors a property slice can surface to its caller. -/
inductive SliceError where
  | transport
  | capUnexpected
deriving Repr, DecidableEq

/-- The per-record timestamp `findLatestTimestamp` extracts from a mapped
property row: the first present field among ModificationTimestamp, ModifiedOn,
UpdatedAt, LastModified.  ModifiedOn and LastModified are absent from mapped
rows, and UpdatedAt is always set, so the chain reduces to two fields. -/
def recordTs (p : MappedProperty) : Option Int :=
  jsOrTs p.ModificationTimestamp (some p.UpdatedAt)

/-- `findLatestTimestamp(records)` from propertySync.js. -/
def findLatestTimestamp (records : List MappedProperty) : Option Int :=
  records.foldl
    (fun acc p =>
      match recordTs p with
      | none => acc
      | some t => jsPickLatest acc (some t))
    none

/-- The dedup pass over one batch: returns
`(uniqueRecords, duplicatesInBatch, seenListingKeys)`.  A record enters
`uniqueRecords` (and its key the set) only when `record.ListingKey` is truthy
and not already seen; every other record is counted as a duplicate. -/
def dedupListings : List String → List RawRecord →
    List RawRecord × Nat × List String
  | seen, [] => ([], 0, seen)
  | seen, r :: rs =>
    if jsTruthy r.ListingKey && !(seen.contains (r.ListingKey.getD "")) then
      let rest := dedupListings ((r.ListingKey.getD "") :: seen) rs
      (r :: rest.1, rest.2.1, rest.2.2)
    else
      let rest := dedupListings seen rs
      (rest.1, rest.2.1 + 1, rest.2.2)

/-- Oldest-timestamp tracking over one batch: for each record,
`record.ModificationTimestamp || record.ModifiedOn`, kept when smaller than
the current oldest. -/
def trackOldest (oldest : Option Int) (value : List RawRecord) : Option Int :=
  value.foldl
    (fun acc r =>
      match jsOrTs r.ModificationTimestamp r.ModifiedOn with
      | none => acc
      | some t =>
        match acc with
        | none => some t
        | some o => if t < o then some t else acc)
    oldest

/-- Package the loop state as the slice's return object
(`totalUnique: seenListingKeys.size`). -/
def mkSliceResult : SliceState → SliceResult
  | ⟨totalFetched, totalUpserted, _skip, latestTimestamp, oldestTimestamp,
      hitLimit, seenListingKeys, serverCount⟩ =>
    ⟨totalFetched, totalUpserted, seenListingKeys.length, latestTimestamp,
      oldestTimestamp, hitLimit, seenListingKeys, serverCount⟩

/-- The `while (hasMoreData)` loop of `fetchAndUpsertBatchesInternal`.
Each iteration: pre-check the 100k cap; fetch one page; an error containing
`total exceeds 100000` sets `hitLimit` and stops (throwing when
`failOnLimit`); an empty page stops; otherwise track oldest, dedup, map and
upsert the unique records (accumulating `totalFetched`/`totalUpserted`/
`latestTimestamp` only when the batch contributed a unique record), stop on a
short page, else advance `skip` and re-check the cap. -/
def sliceLoop (wallNow : Int) (batchSize apiLimit : Nat) (failOnLimit : Bool) :
    List PageFetch → SliceState → Except SliceError SliceResult
  | pages, ⟨totalFetched, totalUpserted, skip, latestTimestamp, oldestTimestamp,
      hitLimit, seenListingKeys, serverCount⟩ =>
    if apiLimit < skip + batchSize ∧ apiLimit ≤ skip then
      .ok (mkSliceResult ⟨totalFetched, totalUpserted, skip, latestTimestamp,
        oldestTimestamp, true, seenListingKeys, serverCount⟩)
    else
      match pages with
      | [] =>
        .ok (mkSliceResult ⟨totalFetched, totalUpserted, skip, latestTimestamp,
          oldestTimestamp, hitLimit, seenListingKeys, serverCount⟩)
      | .transportError :: _ => .error .transport
      | .capExceeded :: _ =>
        if failOnLimit then .error .capUnexpected
        else
          .ok (mkSliceResult ⟨totalFetched, totalUpserted, skip, latestTimestamp,
            oldestTimestamp, true, seenListingKeys, serverCount⟩)
      | .ok value :: rest =>
        if value.length = 0 then
          .ok (mkSliceResult ⟨totalFetched, totalUpserted, skip, latestTimestamp,
            oldestTimestamp, hitLimit, seenListingKeys, serverCount + value.length⟩)
        else
          let oldest := trackOldest oldestTimestamp value
          match dedupListings seenListingKeys value with
          | (uniqueRecords, _duplicatesInBatch, seen1) =>
            match
              (if 0 < uniqueRecords.length then
                (totalFetched + value.length,
                  totalUpserted + (uniqueRecords.map (mapProperty wallNow)).length,
                  jsPickLatest latestTimestamp
                    (findLatestTimestamp (uniqueRecords.map (mapProperty wallNow))))
              else (totalFetched, totalUpserted, latestTimestamp)) with
            | (totalFetched1, totalUpserted1, latestTimestamp1) =>
              if value.length < batchSize then
                .ok (mkSliceResult ⟨totalFetched1, totalUpserted1, skip,
                  latestTimestamp1, oldest, hitLimit, seen1, serverCount + value.length⟩)
              else
                let skip1 := skip + value.length
                if apiLimit ≤ skip1 then
                  .ok (mkSliceResult ⟨totalFetched1, totalUpserted1, skip1,
                    latestTimestamp1, oldest, true, seen1, serverCount + value.length⟩)
                else
                  sliceLoop wallNow batchSize apiLimit failOnLimit rest
                    ⟨totalFetched1, totalUpserted1, skip1, latestTimestamp1,
                      oldest, hitLimit, seen1, serverCount + value.length⟩

/-- `fetchAndUpsertBatchesInternal(baseUrl, token, filter, label,
seenListingKeys, failOnLimit)` applied to the response sequence the server
produces for its filter. -/
def fetchAndUpsertBatchesInternal (wallNow : Int) (batchSize apiLimit : Nat)
    (failOnLimit : Bool) (seenListingKeys : List String) (pages : List PageFetch) :
    Except SliceError SliceResult :=
  sliceLoop wallNow batchSize apiLimit failOnLimit pages
    ⟨0, 0, 0, none, none, false, seenListingKeys, 0⟩

/-- `new Date('2000-01-01')` on the model's time axis (hours since
2000-01-01T00:00:00Z). -/
def date2000 : Int := 0

/-- Mutable locals of `fetchOlderRecordsInChunks` (`daysPerChunk` shrinks when
a chunk hits the cap). -/
structure ChunkState where
  totalFetched : Nat
  totalUpserted : Nat
  latestTimestamp : Option Int
  seenListingKeys : List String
  daysPerChunk : Nat
deriving Repr, DecidableEq

/-- Return value of `fetchOlderRecordsInChunks` (plus the shared dedup set). -/
structure ChunkResult where
  totalFetched : Nat
  totalUpserted : Nat
  latestTimestamp : Option Int
  seenListingKeys : List String
deriving Repr, DecidableEq

/-- The `while (chunkCount < maxChunks)` loop of `fetchOlderRecordsInChunks`,
walking windows `[startDate, endDate)` backward.  The slice runs with
`failOnLimit = true`, so a CapExceeded inside a chunk is thrown.  An empty
chunk advances and stops below the year 2000; a non-empty chunk first halves
`daysPerChunk` when it saturated the cap (`Math.max(1, ...)`), advances, and
stops once the dedup set holds 1.2x the expected records (the float literal
`1.2` is modelled as the exact ratio 12/10; the source compares against the
binary double nearest 1.2, which differs only at the exact boundary and is
never exercised here). -/
def chunksStep (wallNow : Int) (batchSize apiLimit : Nat)
    (server : Int → Int → List PageFetch) (expectedRecords : Nat)
    (chunksRest : Int → Int → ChunkState → Except SliceError ChunkResult)
    (startDate endDate : Int) (st : ChunkState) : Except SliceError ChunkResult :=
    match st with
    | ⟨totalFetched, totalUpserted, latestTimestamp, seenListingKeys, daysPerChunk⟩ =>
      match fetchAndUpsertBatchesInternal wallNow batchSize apiLimit true
          seenListingKeys (server startDate endDate) with
      | .error e => .error e
      | .ok ⟨rF, rU, _rUnique, rLatest, _rOldest, rHitLimit, rSeen, _rServer⟩ =>
        let totalFetched1 := totalFetched + rF
        let totalUpserted1 := totalUpserted + rU
        let latestTimestamp1 := jsPickLatest latestTimestamp rLatest
        if rF = 0 then
          let endDate1 := startDate
          let startDate1 := endDate1 - 24 * (daysPerChunk : Int)
          if startDate1 < date2000 then
            .ok ⟨totalFetched1, totalUpserted1, latestTimestamp1, rSeen⟩
          else
            chunksRest startDate1 endDate1
              ⟨totalFetched1, totalUpserted1, latestTimestamp1, rSeen, daysPerChunk⟩
        else
          let daysPerChunk1 := if rHitLimit then max 1 (daysPerChunk / 2) else daysPerChunk
          let endDate1 := startDate
          let startDate1 := endDate1 - 24 * (daysPerChunk1 : Int)
          if 12 * expectedRecords ≤ 10 * rSeen.length then
            .ok ⟨totalFetched1, totalUpserted1, latestTimestamp1, rSeen⟩
          else
            chunksRest startDate1 endDate1
              ⟨totalFetched1, totalUpserted1, latestTimestamp1, rSeen, daysPerChunk1⟩

/-- The fuel-counted iteration of `chunksStep` (`fuel = maxChunks = 50`). -/
def chunksLoop (wallNow : Int) (batchSize apiLimit : Nat)
    (server : Int → Int → List PageFetch) (expectedRecords : Nat) (fuel : Nat) :
    Int → Int → ChunkState → Except SliceError ChunkResult :=
  Nat.rec (motive := fun _ => Int → Int → ChunkState → Except SliceError ChunkResult)
    (fun _ _ st =>
      .ok ⟨st.totalFetched, st.totalUpserted, st.latestTimestamp, st.seenListingKeys⟩)
    (fun _ chunksRest =>
      chunksStep wallNow batchSize apiLimit server expectedRecords chunksRest)
    fuel

/-- `fetchOlderRecordsInChunks(baseUrl, token, baseFilter, label, beforeDate,
seenListingKeys, expectedRecords)`: picks the chunk width from the expected
cardinality, then walks backward from `beforeDate` for at most 50 chunks. -/
def fetchOlderRecordsInChunks (wallNow : Int) (batchSize apiLimit : Nat)
    (server : Int → Int → List PageFetch) (expectedRecords : Nat)
    (beforeDate : Int) (seenListingKeys : List String) :
    Except SliceError ChunkResult :=
  let daysPerChunk : Nat :=
    if 1000000 < expectedRecords then 7 else if 100000 < expectedRecords then 30 else 90
  let endDate := beforeDate
  let startDate := endDate - 24 * (daysPerChunk : Int)
  chunksLoop wallNow batchSize apiLimit server expectedRecords 50 startDate endDate
    ⟨0, 0, none, seenListingKeys, daysPerChunk⟩

/-- Return value of `fetchWithSmartPagination` (what a `(IDX|VOW)` run hands
back to sync.js). -/
structure RunResult where
  totalFetched : Nat
  totalUpserted : Nat
  totalUnique : Nat
  latestTimestamp : Option Int
deriving Repr, DecidableEq

/-- `fetchWithSmartPagination(baseUrl, token, baseFilter, label,
expectedRecords)`: creates the per-run dedup set, runs one un-windowed slice
with `failOnLimit = false` (`firstPages` is the server's response sequence for
the base filter), and if that slice hit the cap or fetched at least 99000
records, continues with date chunks starting from the oldest timestamp seen
(falling back to `new Date()` = `nowH`). -/
def fetchWithSmartPagination (wallNow : Int) (batchSize apiLimit : Nat)
    (firstPages : List PageFetch) (server : Int → Int → List PageFetch)
    (nowH : Int) (expectedRecords : Nat) : Except SliceError RunResult :=
  match fetchAndUpsertBatchesInternal wallNow batchSize apiLimit false [] firstPages with
  | .error e => .error e
  | .ok ⟨fF, fU, _fUnique, fLatest, fOldest, fHitLimit, fSeen, _fServer⟩ =>
    if fHitLimit || 99000 ≤ fF then
      let oldestDate :=
        match fOldest with
        | some t => t
        | none => nowH
      match fetchOlderRecordsInChunks wallNow batchSize apiLimit server
          expectedRecords oldestDate fSeen with
      | .error e => .error e
      | .ok ⟨oF, oU, oLatest, oSeen⟩ =>
        .ok ⟨fF + oF, fU + oU, oSeen.length, jsPickLatest fLatest oLatest⟩
    else
      .ok ⟨fF, fU, fSeen.length, fLatest⟩

end PropertySync

/-! ### lib/sync/mediaSync.js -/

namespace MediaSync

/-- Mutable locals of `fetchAndUpsertMediaBatchesInternal`; `serverCount` is
ghost instrumentation (records the server actually returned). -/
structure SliceState where
  totalFetched : Nat
  totalUpserted : Nat
  skip : Nat
  latestTimestamp : Option Int
  oldestTimestamp : Option Int
  hitLimit : Bool
  seenMediaKeys : List String
  serverCount : Nat
deriving Repr, DecidableEq

/-- Return value of `fetchAndUpsertMediaBatchesInternal`. -/
structure SliceResult where
  totalFetched : Nat
  totalUpserted : Nat
  totalUnique : Nat
  latestTimestamp : Option Int
  oldestTimestamp : Option Int
  hitLimit : Bool
  seenMediaKeys : List String
  serverCount : Nat
deriving Repr, DecidableEq

/-- A thrown error, carrying the dedup set at throw time (the JS `Set` is
mutated in place, so a caller that catches the error keeps the keys added
before it was thrown). -/
structure SliceThrow where
  seenMediaKeys : List String
deriving Repr, DecidableEq

/-- `` `${record.ResourceRecordKey}_${record.MediaKey}` ``: template
interpolation renders an absent field as the string `undefined`. -/
def mediaCompositeKey (r : RawRecord) : String :=
  r.ResourceRecordKey.getD "undefined" ++ "_" ++ r.MediaKey.getD "undefined"

/-- The per-record timestamp mediaSync's `findLatestTimestamp` extracts from a
mapped media row: first present among MediaModificationTimestamp,
ModificationTimestamp, ModifiedOn, UpdatedAt (ModifiedOn is absent from
mapped rows; UpdatedAt is always set). -/
def recordTs (m : MappedMedia) : Option Int :=
  jsOrTs m.MediaModificationTimestamp
    (jsOrTs m.ModificationTimestamp (some m.UpdatedAt))

/-- `findLatestTimestamp(records)` from mediaSync.js. -/
def findLatestTimestamp (records : List MappedMedia) : Option Int :=
  records.foldl
    (fun acc m =>
      match recordTs m with
      | none => acc
      | some t => jsPickLatest acc (some t))
    none

/-- The dedup pass over one media batch: a record is unique only when both
`ResourceRecordKey` and `MediaKey` are truthy and the composite key is
unseen; every other record is counted as a duplicate. -/
def dedupMedia : List String → List RawRecord → List RawRecord × Nat × List String
  | seen, [] => ([], 0, seen)
  | seen, r :: rs =>
    if jsTruthy r.ResourceRecordKey && jsTruthy r.MediaKey
        && !(seen.contains (mediaCompositeKey r)) then
      let rest := dedupMedia (mediaCompositeKey r :: seen) rs
      (r :: rest.1, rest.2.1, rest.2.2)
    else
      let rest := dedupMedia seen rs
      (rest.1, rest.2.1 + 1, rest.2.2)

/-- Oldest-timestamp tracking over one media batch:
`record.MediaModificationTimestamp || record.ModificationTimestamp`. -/
def trackOldest (oldest : Option Int) (value : List RawRecord) : Option Int :=
  value.foldl
    (fun acc r =>
      match jsOrTs r.MediaModificationTimestamp r.ModificationTimestamp with
      | none => acc
      | some t =>
        match acc with
        | none => some t
        | some o => if t < o then some t else acc)
    oldest

/-- Package the media loop state as the slice's return object. -/
def mkSliceResult : SliceState → SliceResult
  | ⟨totalFetched, totalUpserted, _skip, latestTimestamp, oldestTimestamp,
      hitLimit, seenMediaKeys, serverCount⟩ =>
    ⟨totalFetched, totalUpserted, seenMediaKeys.length, latestTimestamp,
      oldestTimestamp, hitLimit, seenMediaKeys, serverCount⟩

/-- The `while (hasMoreData)` loop of `fetchAndUpsertMediaBatchesInternal`.
Identical to the property loop except for the composite key, the timestamp
fields, and the CapExceeded handler: when `failOnLimit` is set this version
only logs an error (`logger.error`) — it does not throw — so the slice still
returns normally with `hitLimit = true`. -/
def sliceLoop (wallNow : Int) (batchSize apiLimit : Nat) (failOnLimit : Bool) :
    List PageFetch → SliceState → Except SliceThrow SliceResult
  | pages, ⟨totalFetched, totalUpserted, skip, latestTimestamp, oldestTimestamp,
      hitLimit, seenMediaKeys, serverCount⟩ =>
    if apiLimit < skip + batchSize ∧ apiLimit ≤ skip then
      .ok (mkSliceResult ⟨totalFetched, totalUpserted, skip, latestTimestamp,
        oldestTimestamp, true, seenMediaKeys, serverCount⟩)
    else
      match pages with
      | [] =>
        .ok (mkSliceResult ⟨totalFetched, totalUpserted, skip, latestTimestamp,
          oldestTimestamp, hitLimit, seenMediaKeys, serverCount⟩)
      | .transportError :: _ => .error ⟨seenMediaKeys⟩
      | .capExceeded :: _ =>
        .ok (mkSliceResult ⟨totalFetched, totalUpserted, skip, latestTimestamp,
          oldestTimestamp, true, seenMediaKeys, serverCount⟩)
      | .ok value :: rest =>
        if value.length = 0 then
          .ok (mkSliceResult ⟨totalFetched, totalUpserted, skip, latestTimestamp,
            oldestTimestamp, hitLimit, seenMediaKeys, serverCount + value.length⟩)
        else
          let oldest := trackOldest oldestTimestamp value
          match dedupMedia seenMediaKeys value with
          | (uniqueRecords, _duplicatesInBatch, seen1) =>
            match
              (if 0 < uniqueRecords.length then
                (totalFetched + value.length,
                  totalUpserted + (uniqueRecords.map (mapMedia wallNow)).length,
                  jsPickLatest latestTimestamp
                    (findLatestTimestamp (uniqueRecords.map (mapMedia wallNow))))
              else (totalFetched, totalUpserted, latestTimestamp)) with
            | (totalFetched1, totalUpserted1, latestTimestamp1) =>
              if value.length < batchSize then
                .ok (mkSliceResult ⟨totalFetched1, totalUpserted1, skip,
                  latestTimestamp1, oldest, hitLimit, seen1, serverCount + value.length⟩)
              else
                let skip1 := skip + value.length
                if apiLimit ≤ skip1 then
                  .ok (mkSliceResult ⟨totalFetched1, totalUpserted1, skip1,
                    latestTimestamp1, oldest, true, seen1, serverCount + value.length⟩)
                else
                  sliceLoop wallNow batchSize apiLimit failOnLimit rest
                    ⟨totalFetched1, totalUpserted1, skip1, latestTimestamp1,
                      oldest, hitLimit, seen1, serverCount + value.length⟩

/-- `fetchAndUpsertMediaBatchesInternal(baseUrl, token, filter, label,
seenMediaKeys, failOnLimit)` applied to the server's response sequence for
its filter. -/
def fetchAndUpsertMediaBatchesInternal (wallNow : Int) (batchSize apiLimit : Nat)
    (failOnLimit : Bool) (seenMediaKeys : List String) (pages : List PageFetch) :
    Except SliceThrow SliceResult :=
  sliceLoop wallNow batchSize apiLimit failOnLimit pages
    ⟨0, 0, 0, none, none, false, seenMediaKeys, 0⟩

/-- Accumulator shared by `fetchMediaInDateRange`-style drill-down loops.
`sliceFetches` is ghost instrumentation: the `totalFetched` of every slice
executed, in execution order. -/
structure DateRangeState where
  totalFetched : Nat
  totalUpserted : Nat
  latestTimestamp : Option Int
  seenMediaKeys : List String
  sliceFetches : List Nat
deriving Repr, DecidableEq

/-- The `for (let hour = 0; hour < 24; hour++)` loop inside
`fetchMediaDailyInRange` for a day that hit the 100k cap.
`setHours(hour, 0, 0, 0)` truncates `dayStart` to its calendar day. -/
def hourLoop (wallNow : Int) (batchSize apiLimit : Nat)
    (server : Int → Int → List PageFetch) (dayStart : Int) :
    List Nat → DateRangeState → Except SliceThrow DateRangeState
  | [], st => .ok st
  | hour :: hs, ⟨totalFetched, totalUpserted, latestTimestamp, seenMediaKeys, sliceFetches⟩ =>
    let dayFloor := 24 * dayStart.fdiv 24
    let hourStart := dayFloor + (hour : Int)
    let hourEnd := dayFloor + (hour : Int) + 1
    match fetchAndUpsertMediaBatchesInternal wallNow batchSize apiLimit false
        seenMediaKeys (server hourStart hourEnd) with
    | .error e => .error e
    | .ok ⟨hF, hU, _hUnique, hLatest, _hOldest, _hHitLimit, hSeen, _hServer⟩ =>
      hourLoop wallNow batchSize apiLimit server dayStart hs
        ⟨totalFetched + hF, totalUpserted + hU, jsPickLatest latestTimestamp hLatest,
          hSeen, sliceFetches ++ [hF]⟩

/-- The `while (currentDate < rangeEnd)` loop of `fetchMediaDailyInRange`.
A day that hits the cap is re-fetched hour by hour and only the hourly totals
are accumulated (the day slice's totals are dropped, though its dedup-set
additions persist); an hour that still hits the cap is only logged.  The fuel
is an upper bound on the number of day steps (each step advances 24 hours),
so it is never exhausted when initialized by `fetchMediaDailyInRange`. -/
def dayStep (wallNow : Int) (batchSize apiLimit : Nat)
    (server : Int → Int → List PageFetch) (rangeEnd : Int)
    (dayRest : Int → DateRangeState → Except SliceThrow DateRangeState)
    (currentDate : Int) (st : DateRangeState) : Except SliceThrow DateRangeState :=
    match st with
    | ⟨totalFetched, totalUpserted, latestTimestamp, seenMediaKeys, sliceFetches⟩ =>
    if currentDate < rangeEnd then
      let dayStart := currentDate
      let dayEnd := currentDate + 24
      match fetchAndUpsertMediaBatchesInternal wallNow batchSize apiLimit false
          seenMediaKeys (server dayStart dayEnd) with
      | .error e => .error e
      | .ok ⟨rF, rU, _rUnique, rLatest, _rOldest, rHitLimit, rSeen, _rServer⟩ =>
        if rHitLimit then
          match hourLoop wallNow batchSize apiLimit server dayStart
              (List.range 24)
              ⟨totalFetched, totalUpserted, latestTimestamp, rSeen,
                sliceFetches ++ [rF]⟩ with
          | .error e => .error e
          | .ok st2 => dayRest (currentDate + 24) st2
        else
          dayRest (currentDate + 24)
            ⟨totalFetched + rF, totalUpserted + rU,
              jsPickLatest latestTimestamp rLatest, rSeen, sliceFetches ++ [rF]⟩
    else
      .ok ⟨totalFetched, totalUpserted, latestTimestamp, seenMediaKeys, sliceFetches⟩

/-- The fuel-counted iteration of `dayStep`. -/
def dayLoop (wallNow : Int) (batchSize apiLimit : Nat)
    (server : Int → Int → List PageFetch) (rangeEnd : Int) (fuel : Nat) :
    Int → DateRangeState → Except SliceThrow DateRangeState :=
  Nat.rec (motive := fun _ => Int → DateRangeState → Except SliceThrow DateRangeState)
    (fun _ st => .ok st)
    (fun _ dayRest => dayStep wallNow batchSize apiLimit server rangeEnd dayRest)
    fuel

/-- `fetchMediaDailyInRange(baseUrl, token, rangeStart, rangeEnd,
seenMediaKeys)`. -/
def fetchMediaDailyInRange (wallNow : Int) (batchSize apiLimit : Nat)
    (server : Int → Int → List PageFetch) (rangeStart rangeEnd : Int)
    (seenMediaKeys : List String) : Except SliceThrow DateRangeState :=
  dayLoop wallNow batchSize apiLimit server rangeEnd
    ((rangeEnd - rangeStart).toNat + 1) rangeStart
    ⟨0, 0, none, seenMediaKeys, []⟩

/-- Mutable locals of `fetchMediaInDateChunks`' main loop.  `windows`,
`chunkLog` and `sliceFetches` are ghost instrumentation: the windows the walk
processed (in order), a per-chunk log of `(server-returned record count,
slice totalFetched, emptyChunks after the update)`, and the `totalFetched`
of every slice executed anywhere in the run. -/
structure WalkState where
  totalFetched : Nat
  totalUpserted : Nat
  latestTimestamp : Option Int
  seenMediaKeys : List String
  emptyChunks : Nat
  skippedWeeks : List (Int × Int × Nat)
  windows : List (Int × Int)
  chunkLog : List (Nat × Nat × Nat)
  sliceFetches : List Nat
deriving Repr, DecidableEq

/-- The `while (chunkCount < maxChunks)` loop (`maxChunks = 500`) of
`fetchMediaInDateChunks`.  Per chunk: run the slice with
`failOnLimit = false`; accumulate its totals; on an empty chunk bump the
consecutive-empty counter and stop at 10; on a non-empty chunk reset the
counter and, when the chunk hit the cap, record it in `skippedWeeks` and add
its totals a second time (the source's `// Still count the records we did
fetch`); advance `end ← start`, `start ← end − 7d`, and stop as soon as the
new `start` is at or before the target date — without processing that final
clamped window. -/
def walkStep (wallNow : Int) (batchSize apiLimit : Nat)
    (server : Int → Int → List PageFetch) (targetStartDate : Int)
    (walkRest : Int → Int → WalkState → Except SliceThrow WalkState)
    (startDate endDate : Int) (st : WalkState) : Except SliceThrow WalkState :=
    match st with
    | ⟨totalFetched, totalUpserted, latestTimestamp, seenMediaKeys, emptyChunks,
        skippedWeeks, windows, chunkLog, sliceFetches⟩ =>
    match fetchAndUpsertMediaBatchesInternal wallNow batchSize apiLimit false
        seenMediaKeys (server startDate endDate) with
    | .error e => .error e
    | .ok ⟨rF, rU, _rUnique, rLatest, _rOldest, rHitLimit, rSeen, rServer⟩ =>
      let totalFetched1 := totalFetched + rF
      let totalUpserted1 := totalUpserted + rU
      let latestTimestamp1 := jsPickLatest latestTimestamp rLatest
      let windows1 := windows ++ [(startDate, endDate)]
      let sliceFetches1 := sliceFetches ++ [rF]
      if rF = 0 then
        let emptyChunks1 := emptyChunks + 1
        let chunkLog1 := chunkLog ++ [(rServer, rF, emptyChunks1)]
        if 10 ≤ emptyChunks1 then
          .ok ⟨totalFetched1, totalUpserted1, latestTimestamp1, rSeen, emptyChunks1,
            skippedWeeks, windows1, chunkLog1, sliceFetches1⟩
        else
          let endDate1 := startDate
          let startDate1 := endDate1 - 24 * 7
          if startDate1 ≤ targetStartDate then
            .ok ⟨totalFetched1, totalUpserted1, latestTimestamp1, rSeen, emptyChunks1,
              skippedWeeks, windows1, chunkLog1, sliceFetches1⟩
          else
            walkRest startDate1 endDate1
              ⟨totalFetched1, totalUpserted1, latestTimestamp1, rSeen, emptyChunks1,
                skippedWeeks, windows1, chunkLog1, sliceFetches1⟩
      else
        let chunkLog1 := chunkLog ++ [(rServer, rF, 0)]
        match
          (if rHitLimit then
            (skippedWeeks ++ [(startDate, endDate, rF)], totalFetched1 + rF,
              totalUpserted1 + rU, jsPickLatest latestTimestamp1 rLatest)
          else (skippedWeeks, totalFetched1, totalUpserted1, latestTimestamp1)) with
        | (skippedWeeks2, totalFetched2, totalUpserted2, latestTimestamp2) =>
          let endDate1 := startDate
          let startDate1 := endDate1 - 24 * 7
          if startDate1 ≤ targetStartDate then
            .ok ⟨totalFetched2, totalUpserted2, latestTimestamp2, rSeen, 0,
              skippedWeeks2, windows1, chunkLog1, sliceFetches1⟩
          else
            walkRest startDate1 endDate1
              ⟨totalFetched2, totalUpserted2, latestTimestamp2, rSeen, 0,
                skippedWeeks2, windows1, chunkLog1, sliceFetches1⟩

/-- The fuel-counted iteration of `walkStep` (`fuel = maxChunks = 500` at the
top-level call; exhausted fuel is the `chunkCount < maxChunks` exit). -/
def walkLoop (wallNow : Int) (batchSize apiLimit : Nat)
    (server : Int → Int → List PageFetch) (targetStartDate : Int) (fuel : Nat) :
    Int → Int → WalkState → Except SliceThrow WalkState :=
  Nat.rec (motive := fun _ => Int → Int → WalkState → Except SliceThrow WalkState)
    (fun _ _ st => .ok st)
    (fun _ walkRest =>
      walkStep wallNow batchSize apiLimit server targetStartDate walkRest)
    fuel

/-- The `for` loop over `skippedWeeks` after the walk: each deferred week is
re-fetched daily (drilling to hours as needed); a throw inside one week is
caught and the remaining weeks are processed — the thrown week's totals are
lost, but its dedup-set additions persist (the JS set is shared). -/
def processSkippedWeeks (wallNow : Int) (batchSize apiLimit : Nat)
    (server : Int → Int → List PageFetch) :
    List (Int × Int × Nat) → WalkState → WalkState
  | [], st => st
  | (weekStart, weekEnd, _) :: rest,
      ⟨totalFetched, totalUpserted, latestTimestamp, seenMediaKeys, emptyChunks,
        skippedWeeks, windows, chunkLog, sliceFetches⟩ =>
    match fetchMediaDailyInRange wallNow batchSize apiLimit server weekStart
        weekEnd seenMediaKeys with
    | .error e =>
      processSkippedWeeks wallNow batchSize apiLimit server rest
        ⟨totalFetched, totalUpserted, latestTimestamp, e.seenMediaKeys, emptyChunks,
          skippedWeeks, windows, chunkLog, sliceFetches⟩
    | .ok ⟨dF, dU, dLatest, dSeen, dSliceFetches⟩ =>
      processSkippedWeeks wallNow batchSize apiLimit server rest
        ⟨totalFetched + dF, totalUpserted + dU, jsPickLatest latestTimestamp dLatest,
          dSeen, emptyChunks, skippedWeeks, windows, chunkLog,
          sliceFetches ++ dSliceFetches⟩

/-- Return value of a full media run (plus the ghost instrumentation). -/
structure MediaRunResult where
  totalFetched : Nat
  totalUpserted : Nat
  totalUnique : Nat
  latestTimestamp : Option Int
  windows : List (Int × Int)
  chunkLog : List (Nat × Nat × Nat)
  sliceFetches : List Nat
deriving Repr, DecidableEq

/-- `fetchMediaInDateChunks(baseUrl, token, seenMediaKeys)`: walk backward in
7-day windows from `end = now + 1 day` toward `MEDIA_SYNC_START_DATE`
(`targetStartDate`), then drill down the deferred weeks. -/
def fetchMediaInDateChunks (wallNow : Int) (batchSize apiLimit : Nat)
    (server : Int → Int → List PageFetch) (nowH targetStartDate : Int)
    (seenMediaKeys : List String) : Except SliceThrow MediaRunResult :=
  let endDate := nowH + 24
  let startDate := endDate - 24 * 7
  match walkLoop wallNow batchSize apiLimit server targetStartDate 500
      startDate endDate ⟨0, 0, none, seenMediaKeys, 0, [], [], [], []⟩ with
  | .error e => .error e
  | .ok st =>
    match processSkippedWeeks wallNow batchSize apiLimit server st.skippedWeeks st with
    | ⟨totalFetched, totalUpserted, latestTimestamp, seenMediaKeys, _emptyChunks,
        _skippedWeeks, windows, chunkLog, sliceFetches⟩ =>
      .ok ⟨totalFetched, totalUpserted, seenMediaKeys.length, latestTimestamp,
        windows, chunkLog, sliceFetches⟩

/-- `fetchMediaRecords(incremental = false)` via
`fetchMediaWithSmartPagination`: a full sync creates a fresh dedup set and
goes directly to `fetchMediaInDateChunks`. -/
def fetchMediaRecordsFull (wallNow : Int) (batchSize apiLimit : Nat)
    (server : Int → Int → List PageFetch) (nowH targetStartDate : Int) :
    Except SliceThrow MediaRunResult :=
  fetchMediaInDateChunks wallNow batchSize apiLimit server nowH targetStartDate []

end MediaSync

/-! ### sync.js -/

/-- `processMedia()` from sync.js, in full-sync mode: run the media fetch; on
failure the error is caught (and without `--fail-fast` the run just moves
on), leaving the checkpoint untouched; on success, when `latestTimestamp` is
truthy, write it to the sync log, ignoring sync-log errors. -/
def processMedia (wallNow : Int) (batchSize apiLimit : Nat)
    (server : Int → Int → List PageFetch) (nowH targetStartDate : Int)
    (db : DbState) : DbState :=
  match MediaSync.fetchMediaRecordsFull wallNow batchSize apiLimit server nowH
      targetStartDate with
  | .error _ => db
  | .ok result =>
    match result.latestTimestamp with
    | none => db
    | some ts =>
      match updateSyncLog db "MEDIA" (some ts) wallNow with
      | .error _ => db
      | .ok db1 => db1

/-! ### Specification predicates -/

/-- Whether some processed window contains the instant `t`
(half-open convention). -/
def windowCovers (ws : List (Int × Int)) (t : Int) : Bool :=
  ws.any (fun w => decide (w.1 ≤ t) && decide (t < w.2))

/-- The shape of the windows the media walk actually processes when started
on window `[s, e)`: the first processed window is `(s, e)`, and each further
window is the adjacent older 7-day window `(s - 7d, s)`, processed only when
its start lies strictly after the target date. -/
def backwardChain (target : Int) : Int → Int → List (Int × Int) → Prop
  | _, _, [] => True
  | s, e, w :: ws =>
    w = (s, e) ∧
      (ws = [] ∨ (target < s - 24 * 7 ∧ backwardChain target (s - 24 * 7) s ws))

/-- The empty-chunk counter discipline over the walk's per-chunk log
`(serverCount, sliceFetched, emptyAfter)`: starting from counter `c`, each
entry's counter is `c + 1` when the slice's `totalFetched` was 0 and `0`
otherwise, and an entry that reaches 10 is the last one. -/
def counterSpec : Nat → List (Nat × Nat × Nat) → Prop
  | _, [] => True
  | c, entry :: rest =>
    entry.2.2 = (if entry.2.1 = 0 then c + 1 else 0) ∧
      (10 ≤ entry.2.2 → rest = []) ∧ counterSpec entry.2.2 rest

/-- The behaviour C6 claims of the walk log: any chunk whose server responses
contained at least one record leaves the consecutive-empty counter at 0. -/
def resetsOnServerRecords (log : List (Nat × Nat × Nat)) : Bool :=
  log.all (fun entry => if 1 ≤ entry.1 then entry.2.2 == 0 else true)

/-- An optional timestamp is strictly above the bound `c` whenever present. -/
def latestBound (c : Int) (o : Option Int) : Prop :=
  ∀ t, o = some t → c < t

/-- Every record the server can return carries (after mapping) an effective
timestamp strictly above `c` — what the incremental `gt c` filter guarantees
when the upstream honors it. -/
def serverTsAbove (wallNow c : Int) (server : Int → Int → List PageFetch) : Prop :=
  ∀ s e, ∀ rec ∈ pagesRecords (server s e), ∀ t,
    MediaSync.recordTs (mapMedia wallNow rec) = some t → c < t

/-! ### Concrete scenarios -/

/-- A server with no records for any window. -/
def emptyServer : Int → Int → List PageFetch := fun _ _ => []

/-- One well-keyed media record with `MediaModificationTimestamp = 5`. -/
def c2Rec : RawRecord :=
  { ResourceRecordKey := some "a", MediaKey := some "b",
    MediaModificationTimestamp := some 5 }

/-- A server where the newest week returns one record and then the
CapExceeded marker, and every other window is empty. -/
def c2Server : Int → Int → List PageFetch := fun s e =>
  if s = -144 ∧ e = 24 then [.ok [c2Rec], .capExceeded] else []

/-- Full media run against `c2Server` with `BATCH_SIZE = 1`: the newest week
saturates the cap after one record and every drill-down day is empty. -/
def c2Run : Except MediaSync.SliceThrow MediaSync.MediaRunResult :=
  MediaSync.fetchMediaInDateChunks 0 1 100000 c2Server 0 (-200) []

/-- One well-keyed media record with `MediaModificationTimestamp = 7`. -/
def c4Rec : RawRecord :=
  { ResourceRecordKey := some "k", MediaKey := some "m",
    MediaModificationTimestamp := some 7 }

/-- A server like `c2Server` but for the C4 scenario. -/
def c4Server : Int → Int → List PageFetch := fun s e =>
  if s = -144 ∧ e = 24 then [.ok [c4Rec], .capExceeded] else []

/-- Full media run against `c4Server` with `BATCH_SIZE = 1`. -/
def c4Run : Except MediaSync.SliceThrow MediaSync.MediaRunResult :=
  MediaSync.fetchMediaInDateChunks 0 1 100000 c4Server 0 (-200) []

/-- One well-keyed media record with `MediaModificationTimestamp = 3`. -/
def c6Rec : RawRecord :=
  { ResourceRecordKey := some "x", MediaKey := some "y",
    MediaModificationTimestamp := some 3 }

/-- A server that returns the same single record for the two newest weekly
windows: the second window's only record is a duplicate of the first's. -/
def c6Server : Int → Int → List PageFetch := fun s e =>
  if (s = -144 ∧ e = 24) ∨ (s = -312 ∧ e = -144) then [.ok [c6Rec]] else []

/-- Full media run against `c6Server` with `BATCH_SIZE = 2`. -/
def c6Run : Except MediaSync.SliceThrow MediaSync.MediaRunResult :=
  MediaSync.fetchMediaInDateChunks 0 2 100000 c6Server 0 (-400) []

/-- One well-keyed media record with `MediaModificationTimestamp = 50`. -/
def c7Rec : RawRecord :=
  { ResourceRecordKey := some "p", MediaKey := some "q",
    MediaModificationTimestamp := some 50 }

/-- A server whose only record (timestamp 50) sits in the newest week. -/
def c7Server : Int → Int → List PageFetch := fun s e =>
  if s = -144 ∧ e = 24 then [.ok [c7Rec]] else []

/-- A database whose MEDIA checkpoint is 100. -/
def c7Db : DbState := ⟨true, [("MEDIA", ⟨100, 0⟩)]⟩

/-- One well-keyed media record with `MediaModificationTimestamp = 150`. -/
def c7wRec : RawRecord :=
  { ResourceRecordKey := some "p", MediaKey := some "q",
    MediaModificationTimestamp := some 150 }

/-- A server whose only record (timestamp 150) sits in the newest week. -/
def c7wServer : Int → Int → List PageFetch := fun s e =>
  if s = -144 ∧ e = 24 then [.ok [c7wRec]] else []

/-- An endpoint that fails with HTTP 404 on every attempt. -/
def http404Responses : Nat → FetchOutcome := fun _ => .httpError 404

/-- An endpoint that returns 503 twice and then succeeds. -/
def thirdTrySucceeds : Nat → FetchOutcome := fun n =>
  if n = 3 then .success else .httpError 503

/-- One well-keyed listing record. -/
def c4wRec : RawRecord :=
  { ListingKey := some "L", ModificationTimestamp := some 1 }

/-- A media record whose `MediaKey` is absent. -/
def noKeyRec : RawRecord :=
  { ResourceRecordKey := some "r", MediaKey := none,
    MediaModificationTimestamp := some 9 }

/-! ### Helper lemmas -/

theorem fetchWithRetryGo_succ (d : Nat) (f : Nat → FetchOutcome) (a r : Nat) :
    fetchWithRetryGo d f a (r + 1)
      = if (f a).isSuccess then ⟨1, [], true⟩
        else if r = 0 then ⟨1, [], false⟩
        else
          ⟨(fetchWithRetryGo d f (a + 1) r).attempts + 1,
            d * 2 ^ (a - 1) :: (fetchWithRetryGo d f (a + 1) r).delays,
            (fetchWithRetryGo d f (a + 1) r).succeeded⟩ := rfl

theorem fetchWithRetryGo_one (d : Nat) (f : Nat → FetchOutcome) (a : Nat) :
    fetchWithRetryGo d f a 1 = ⟨1, [], (f a).isSuccess⟩ := by
  show fetchWithRetryGo d f a (0 + 1) = _
  rw [fetchWithRetryGo_succ]
  rcases h : (f a).isSuccess <;> simp [h]

theorem fetchWithRetryGo_two (d : Nat) (f : Nat → FetchOutcome) (a : Nat)
    (h : (f a).isSuccess = false) :
    fetchWithRetryGo d f a 2 = ⟨2, [d * 2 ^ (a - 1)], (f (a + 1)).isSuccess⟩ := by
  show fetchWithRetryGo d f a (1 + 1) = _
  rw [fetchWithRetryGo_succ, h]
  simp [fetchWithRetryGo_one]

theorem dedupMedia_facts :
    ∀ (value : List RawRecord) (seen : List String),
      (∀ x ∈ (MediaSync.dedupMedia seen value).1,
          jsTruthy x.ResourceRecordKey = true ∧ jsTruthy x.MediaKey = true) ∧
      (MediaSync.dedupMedia seen value).1.length
          + (MediaSync.dedupMedia seen value).2.1 = value.length ∧
      (∀ k ∈ (MediaSync.dedupMedia seen value).2.2,
          k ∈ seen ∨ ∃ u ∈ (MediaSync.dedupMedia seen value).1,
            k = MediaSync.mediaCompositeKey u) := by
  intro value
  induction value with
  | nil => intro seen; simp [MediaSync.dedupMedia]
  | cons r rs ih =>
    intro seen
    by_cases h : (jsTruthy r.ResourceRecordKey && jsTruthy r.MediaKey
        && !(seen.contains (MediaSync.mediaCompositeKey r))) = true
    · obtain ⟨ih1, ih2, ih3⟩ := ih (MediaSync.mediaCompositeKey r :: seen)
      simp only [MediaSync.dedupMedia, h, if_true]
      refine ⟨?_, ?_, ?_⟩
      · intro x hx
        rcases List.mem_cons.mp hx with hx | hx
        · subst hx
          simp only [Bool.and_eq_true] at h
          exact ⟨h.1.1, h.1.2⟩
        · exact ih1 x hx
      · simp only [List.length_cons]
        omega
      · intro k hk
        rcases ih3 k hk with hk1 | ⟨u, hu, hk2⟩
        · rcases List.mem_cons.mp hk1 with hk1 | hk1
          · exact Or.inr ⟨r, List.mem_cons_self r _, hk1⟩
          · exact Or.inl hk1
        · exact Or.inr ⟨u, List.mem_cons_of_mem r hu, hk2⟩
    · obtain ⟨ih1, ih2, ih3⟩ := ih seen
      simp only [MediaSync.dedupMedia, h, if_false, Bool.false_eq_true]
      refine ⟨ih1, ?_, ih3⟩
      simp only [List.length_cons]
      omega

theorem dedupListings_facts :
    ∀ (value : List RawRecord) (seen : List String),
      (∀ x ∈ (PropertySync.dedupListings seen value).1, jsTruthy x.ListingKey = true) ∧
      (PropertySync.dedupListings seen value).1.length
          + (PropertySync.dedupListings seen value).2.1 = value.length ∧
      (∀ k ∈ (PropertySync.dedupListings seen value).2.2,
          k ∈ seen ∨ ∃ u ∈ (PropertySync.dedupListings seen value).1,
            k = u.ListingKey.getD "") := by
  intro value
  induction value with
  | nil => intro seen; simp [PropertySync.dedupListings]
  | cons r rs ih =>
    intro seen
    by_cases h : (jsTruthy r.ListingKey
        && !(seen.contains (r.ListingKey.getD ""))) = true
    · obtain ⟨ih1, ih2, ih3⟩ := ih (r.ListingKey.getD "" :: seen)
      simp only [PropertySync.dedupListings, h, if_true]
      refine ⟨?_, ?_, ?_⟩
      · intro x hx
        rcases List.mem_cons.mp hx with hx | hx
        · subst hx
          simp only [Bool.and_eq_true] at h
          exact h.1
        · exact ih1 x hx
      · simp only [List.length_cons]
        omega
      · intro k hk
        rcases ih3 k hk with hk1 | ⟨u, hu, hk2⟩
        · rcases List.mem_cons.mp hk1 with hk1 | hk1
          · exact Or.inr ⟨r, List.mem_cons_self r _, hk1⟩
          · exact Or.inl hk1
        · exact Or.inr ⟨u, List.mem_cons_of_mem r hu, hk2⟩
    · obtain ⟨ih1, ih2, ih3⟩ := ih seen
      simp only [PropertySync.dedupListings, h, if_false, Bool.false_eq_true]
      refine ⟨ih1, ?_, ih3⟩
      simp only [List.length_cons]
      omega

theorem walkLoop_zero (wallNow : Int) (batchSize apiLimit : Nat)
    (server : Int → Int → List PageFetch) (target : Int) (s e : Int)
    (st : MediaSync.WalkState) :
    MediaSync.walkLoop wallNow batchSize apiLimit server target 0 s e st = .ok st := rfl

theorem walkLoop_succ (wallNow : Int) (batchSize apiLimit : Nat)
    (server : Int → Int → List PageFetch) (target : Int) (fuel : Nat)
    (s e : Int) (st : MediaSync.WalkState) :
    MediaSync.walkLoop wallNow batchSize apiLimit server target (fuel + 1) s e st
      = MediaSync.walkStep wallNow batchSize apiLimit server target
          (MediaSync.walkLoop wallNow batchSize apiLimit server target fuel) s e st := rfl

theorem walkLoop_ghost (wallNow : Int) (batchSize apiLimit : Nat)
    (server : Int → Int → List PageFetch) (target : Int) :
    ∀ (fuel : Nat) (s e : Int) (st st' : MediaSync.WalkState),
      MediaSync.walkLoop wallNow batchSize apiLimit server target fuel s e st = .ok st' →
      ∃ ws log, st'.windows = st.windows ++ ws ∧ backwardChain target s e ws ∧
        st'.chunkLog = st.chunkLog ++ log ∧ counterSpec st.emptyChunks log := by
  intro fuel
  induction fuel with
  | zero =>
    intro s e st st' h
    rw [walkLoop_zero] at h
    cases h
    exact ⟨[], [], by simp, trivial, by simp, trivial⟩
  | succ fuel ih =>
    intro s e st st' h
    rw [walkLoop_succ] at h
    obtain ⟨tF, tU, lT, seen, eC, sW, wins, cLog, sF⟩ := st
    simp only [MediaSync.walkStep] at h
    split at h
    · exact absurd h (by simp)
    · rename_i rF rU rUnique rLatest rOldest rHitLimit rSeen rServer heq
      split at h
      · -- empty chunk
        rename_i hrF
        split at h
        · -- ten consecutive empties: stop
          cases h
          refine ⟨[(s, e)], [(rServer, rF, eC + 1)], rfl, ⟨rfl, Or.inl rfl⟩, rfl, ?_⟩
          exact ⟨by simp [hrF], fun _ => rfl, trivial⟩
        · rename_i h10
          split at h
          · -- reached the target date: stop
            cases h
            refine ⟨[(s, e)], [(rServer, rF, eC + 1)], rfl, ⟨rfl, Or.inl rfl⟩, rfl, ?_⟩
            exact ⟨by simp [hrF], fun _ => rfl, trivial⟩
          · -- continue with the next older window
            rename_i htgt
            obtain ⟨ws', log', hw, hc, hl, hcs⟩ := ih _ _ _ _ h
            refine ⟨(s, e) :: ws', (rServer, rF, eC + 1) :: log', ?_, ?_, ?_, ?_⟩
            · simpa using hw
            · exact ⟨rfl, Or.inr ⟨by omega, hc⟩⟩
            · simpa using hl
            · exact ⟨by simp [hrF], fun h10c => absurd h10c h10, hcs⟩
      · -- non-empty chunk
        rename_i hrF
        split at h
        · -- reached the target date: stop
          cases h
          refine ⟨[(s, e)], [(rServer, rF, 0)], rfl, ⟨rfl, Or.inl rfl⟩, rfl, ?_⟩
          exact ⟨by simp [hrF], fun h10c => by simp at h10c, trivial⟩
        · -- continue with the next older window
          rename_i htgt
          obtain ⟨ws', log', hw, hc, hl, hcs⟩ := ih _ _ _ _ h
          refine ⟨(s, e) :: ws', (rServer, rF, 0) :: log', ?_, ?_, ?_, ?_⟩
          · simpa using hw
          · exact ⟨rfl, Or.inr ⟨by omega, hc⟩⟩
          · simpa using hl
          · exact ⟨by simp [hrF], fun h10c => by simp at h10c, hcs⟩

theorem processSkippedWeeks_ghost (wallNow : Int) (batchSize apiLimit : Nat)
    (server : Int → Int → List PageFetch) :
    ∀ (l : List (Int × Int × Nat)) (st : MediaSync.WalkState),
      (MediaSync.processSkippedWeeks wallNow batchSize apiLimit server l st).windows
          = st.windows ∧
      (MediaSync.processSkippedWeeks wallNow batchSize apiLimit server l st).chunkLog
          = st.chunkLog := by
  intro l
  induction l with
  | nil => intro st; exact ⟨rfl, rfl⟩
  | cons wk rest ih =>
    intro st
    obtain ⟨tF, tU, lT, seen, eC, sW, wins, cLog, sF⟩ := st
    obtain ⟨weekStart, weekEnd, n⟩ := wk
    simp only [MediaSync.processSkippedWeeks]
    split
    · exact ih _
    · exact ih _

theorem dedupListings_growth :
    ∀ (value : List RawRecord) (seen : List String),
      (PropertySync.dedupListings seen value).2.2.length
        = seen.length + (PropertySync.dedupListings seen value).1.length := by
  intro value
  induction value with
  | nil => intro seen; simp [PropertySync.dedupListings]
  | cons r rs ih =>
    intro seen
    by_cases h : (jsTruthy r.ListingKey
        && !(seen.contains (r.ListingKey.getD ""))) = true
    · simp only [PropertySync.dedupListings, h, if_true]
      have := ih (r.ListingKey.getD "" :: seen)
      simp only [List.length_cons] at this
      simp only [List.length_cons]
      omega
    · simp only [PropertySync.dedupListings, h, if_false, Bool.false_eq_true]
      exact ih seen

theorem sliceLoop_totals (wallNow : Int) (batchSize apiLimit : Nat)
    (failOnLimit : Bool) :
    ∀ (pages : List PageFetch) (st : PropertySync.SliceState)
      (r : PropertySync.SliceResult),
      PropertySync.sliceLoop wallNow batchSize apiLimit failOnLimit pages st = .ok r →
      r.seenListingKeys.length + st.totalUpserted
          = st.seenListingKeys.length + r.totalUpserted ∧
      r.seenListingKeys.length + st.totalFetched
          ≤ st.seenListingKeys.length + r.totalFetched ∧
      st.seenListingKeys.length ≤ r.seenListingKeys.length := by
  intro pages
  induction pages with
  | nil =>
    intro st r h
    obtain ⟨f, u, sk, lt, ot, hl, seen, sc⟩ := st
    simp only [PropertySync.sliceLoop] at h
    split at h
    all_goals cases h
    all_goals simp [PropertySync.mkSliceResult]
  | cons page rest ih =>
    intro st r h
    obtain ⟨f, u, sk, lt, ot, hl, seen, sc⟩ := st
    dsimp only
    cases page with
    | transportError =>
      simp only [PropertySync.sliceLoop] at h
      split at h
      · cases h; simp [PropertySync.mkSliceResult]
      · exact absurd h (by simp)
    | capExceeded =>
      simp only [PropertySync.sliceLoop] at h
      split at h
      · cases h; simp [PropertySync.mkSliceResult]
      · split at h
        · exact absurd h (by simp)
        · cases h; simp [PropertySync.mkSliceResult]
    | ok value =>
      simp only [PropertySync.sliceLoop] at h
      split at h
      · cases h; simp [PropertySync.mkSliceResult]
      · split at h
        · cases h; simp [PropertySync.mkSliceResult]
        · rename_i hlen
          have hgrow := dedupListings_growth value seen
          have hcount := (dedupListings_facts value seen).2.1
          rcases hd : PropertySync.dedupListings seen value with ⟨us, ds, seen1⟩
          rw [hd] at h hgrow hcount
          simp only at h hgrow hcount
          by_cases hpos : 0 < us.length
          · -- at least one unique record in the batch
            simp only [if_pos hpos] at h
            split at h
            · cases h
              simp only [PropertySync.mkSliceResult, List.length_map]
              refine ⟨by omega, by omega, by omega⟩
            · split at h
              · cases h
                simp only [PropertySync.mkSliceResult, List.length_map]
                refine ⟨by omega, by omega, by omega⟩
              · obtain ⟨ih1, ih2, ih3⟩ := ih _ _ h
                simp only [List.length_map] at ih1 ih2 ih3
                refine ⟨by omega, by omega, by omega⟩
          · -- all duplicates
            simp only [if_neg hpos] at h
            split at h
            · cases h
              simp only [PropertySync.mkSliceResult]
              refine ⟨by omega, by omega, by omega⟩
            · split at h
              · cases h
                simp only [PropertySync.mkSliceResult]
                refine ⟨by omega, by omega, by omega⟩
              · obtain ⟨ih1, ih2, ih3⟩ := ih _ _ h
                simp only at ih1 ih2 ih3
                refine ⟨by omega, by omega, by omega⟩

theorem chunksLoop_zero (wallNow : Int) (batchSize apiLimit : Nat)
    (server : Int → Int → List PageFetch) (expectedRecords : Nat) (s e : Int)
    (st : PropertySync.ChunkState) :
    PropertySync.chunksLoop wallNow batchSize apiLimit server expectedRecords 0 s e st
      = .ok ⟨st.totalFetched, st.totalUpserted, st.latestTimestamp,
          st.seenListingKeys⟩ := rfl

theorem chunksLoop_succ (wallNow : Int) (batchSize apiLimit : Nat)
    (server : Int → Int → List PageFetch) (expectedRecords : Nat) (fuel : Nat)
    (s e : Int) (st : PropertySync.ChunkState) :
    PropertySync.chunksLoop wallNow batchSize apiLimit server expectedRecords
        (fuel + 1) s e st
      = PropertySync.chunksStep wallNow batchSize apiLimit server expectedRecords
          (PropertySync.chunksLoop wallNow batchSize apiLimit server expectedRecords fuel)
          s e st := rfl

theorem chunksLoop_totals (wallNow : Int) (batchSize apiLimit : Nat)
    (server : Int → Int → List PageFetch) (expectedRecords : Nat) :
    ∀ (fuel : Nat) (s e : Int) (st : PropertySync.ChunkState)
      (cr : PropertySync.ChunkResult),
      PropertySync.chunksLoop wallNow batchSize apiLimit server expectedRecords
          fuel s e st = .ok cr →
      cr.seenListingKeys.length + st.totalUpserted
          = st.seenListingKeys.length + cr.totalUpserted ∧
      cr.seenListingKeys.length + st.totalFetched
          ≤ st.seenListingKeys.length + cr.totalFetched ∧
      st.seenListingKeys.length ≤ cr.seenListingKeys.length := by
  intro fuel
  induction fuel with
  | zero =>
    intro s e st cr h
    obtain ⟨tF, tU, lT, seen, dpc⟩ := st
    dsimp only
    rw [chunksLoop_zero] at h
    cases h
    dsimp only
    omega
  | succ fuel ih =>
    intro s e st cr h
    obtain ⟨tF, tU, lT, seen, dpc⟩ := st
    dsimp only
    rw [chunksLoop_succ] at h
    simp only [PropertySync.chunksStep] at h
    split at h
    · exact absurd h (by simp)
    · rename_i rF rU rUnique rLatest rOldest rHitLimit rSeen rServer heq
      have hs := sliceLoop_totals wallNow batchSize apiLimit true (server s e)
        ⟨0, 0, 0, none, none, false, seen, 0⟩
        ⟨rF, rU, rUnique, rLatest, rOldest, rHitLimit, rSeen, rServer⟩ heq
      simp only at hs
      obtain ⟨hs1, hs2, hs3⟩ := hs
      split at h
      · -- empty chunk: advance, maybe stop below year 2000
        split at h
        · cases h
          dsimp only
          refine ⟨by omega, by omega, by omega⟩
        · obtain ⟨ih1, ih2, ih3⟩ := ih _ _ _ _ h
          simp only at ih1 ih2 ih3
          refine ⟨by omega, by omega, by omega⟩
      · -- non-empty chunk: maybe stop at the 1.2x threshold
        split at h
        · cases h
          dsimp only
          refine ⟨by omega, by omega, by omega⟩
        · obtain ⟨ih1, ih2, ih3⟩ := ih _ _ _ _ h
          simp only at ih1 ih2 ih3
          refine ⟨by omega, by omega, by omega⟩

theorem pagesRecords_cons (p : PageFetch) (rest : List PageFetch) :
    pagesRecords (p :: rest) = pageRecords p ++ pagesRecords rest := rfl

theorem jsPickLatest_bound (c : Int) (a b : Option Int)
    (ha : latestBound c a) (hb : latestBound c b) :
    latestBound c (jsPickLatest a b) := by
  intro t ht
  cases a with
  | none =>
    cases b with
    | none => exact Option.noConfusion ht
    | some tb =>
      simp only [jsPickLatest] at ht
      cases ht
      exact hb _ rfl
  | some ta =>
    cases b with
    | none =>
      simp only [jsPickLatest] at ht
      cases ht
      exact ha _ rfl
    | some tb =>
      simp only [jsPickLatest] at ht
      split at ht
      · cases ht; exact hb _ rfl
      · cases ht; exact ha _ rfl

theorem mediaFindLatest_bound_aux (c : Int) :
    ∀ (l : List MappedMedia) (acc : Option Int),
      latestBound c acc →
      (∀ m ∈ l, ∀ t, MediaSync.recordTs m = some t → c < t) →
      latestBound c (l.foldl
        (fun acc m =>
          match MediaSync.recordTs m with
          | none => acc
          | some t => jsPickLatest acc (some t)) acc) := by
  intro l
  induction l with
  | nil => intro acc hacc _; exact hacc
  | cons m ms ih =>
    intro acc hacc hl
    simp only [List.foldl_cons]
    apply ih
    · rcases hm : MediaSync.recordTs m with _ | t
      · simp only [hm]
        exact hacc
      · simp only [hm]
        refine jsPickLatest_bound c acc (some t) hacc ?_
        intro t2 ht2
        cases ht2
        exact hl m (List.mem_cons_self m ms) _ hm
    · intro m2 hm2 t ht
      exact hl m2 (List.mem_cons_of_mem m hm2) t ht

theorem mediaFindLatest_bound (c : Int) (l : List MappedMedia)
    (hl : ∀ m ∈ l, ∀ t, MediaSync.recordTs m = some t → c < t) :
    latestBound c (MediaSync.findLatestTimestamp l) :=
  mediaFindLatest_bound_aux c l none (fun _ ht => Option.noConfusion ht) hl

theorem dedupMedia_sub :
    ∀ (value : List RawRecord) (seen : List String) (x : RawRecord),
      x ∈ (MediaSync.dedupMedia seen value).1 → x ∈ value := by
  intro value
  induction value with
  | nil => intro seen x hx; simp [MediaSync.dedupMedia] at hx
  | cons r rs ih =>
    intro seen x hx
    by_cases h : (jsTruthy r.ResourceRecordKey && jsTruthy r.MediaKey
        && !(seen.contains (MediaSync.mediaCompositeKey r))) = true
    · simp only [MediaSync.dedupMedia, h, if_true] at hx
      rcases List.mem_cons.mp hx with hx | hx
      · subst hx; exact List.mem_cons_self x rs
      · exact List.mem_cons_of_mem r (ih _ _ hx)
    · simp only [MediaSync.dedupMedia, h, if_false, Bool.false_eq_true] at hx
      exact List.mem_cons_of_mem r (ih _ _ hx)

theorem mediaSliceLoop_bound (wallNow : Int) (batchSize apiLimit : Nat)
    (failOnLimit : Bool) (c : Int) :
    ∀ (pages : List PageFetch) (st : MediaSync.SliceState)
      (r : MediaSync.SliceResult),
      (∀ rec ∈ pagesRecords pages, ∀ t,
        MediaSync.recordTs (mapMedia wallNow rec) = some t → c < t) →
      latestBound c st.latestTimestamp →
      MediaSync.sliceLoop wallNow batchSize apiLimit failOnLimit pages st = .ok r →
      latestBound c r.latestTimestamp := by
  intro pages
  induction pages with
  | nil =>
    intro st r hp hb h
    obtain ⟨f, u, sk, lt, ot, hl, seen, sc⟩ := st
    simp only [MediaSync.sliceLoop] at h
    split at h
    · cases h; exact hb
    · cases h; exact hb
  | cons page rest ih =>
    intro st r hp hb h
    obtain ⟨f, u, sk, lt, ot, hl, seen, sc⟩ := st
    have hbl : latestBound c lt := hb
    cases page with
    | transportError =>
      simp only [MediaSync.sliceLoop] at h
      split at h
      · cases h; exact hb
      · exact absurd h (by simp)
    | capExceeded =>
      simp only [MediaSync.sliceLoop] at h
      split at h
      · cases h; exact hb
      · cases h; exact hb
    | ok value =>
      have hpTail : ∀ rec ∈ pagesRecords rest, ∀ t,
          MediaSync.recordTs (mapMedia wallNow rec) = some t → c < t := by
        intro rec hr t ht
        refine hp rec ?_ t ht
        rw [pagesRecords_cons]
        exact List.mem_append_right _ hr
      simp only [MediaSync.sliceLoop] at h
      split at h
      · cases h; exact hb
      · split at h
        · cases h; exact hb
        · rename_i hlen
          have h1sub := dedupMedia_sub value seen
          rcases hd : MediaSync.dedupMedia seen value with ⟨us, ds, seen1⟩
          rw [hd] at h h1sub
          simp only at h h1sub
          have hbatch : ∀ m ∈ us.map (mapMedia wallNow), ∀ t,
              MediaSync.recordTs m = some t → c < t := by
            intro m hm t ht
            obtain ⟨x, hx, rfl⟩ := List.mem_map.mp hm
            have hx2 : x ∈ value := h1sub x hx
            refine hp x ?_ t ht
            rw [pagesRecords_cons]
            exact List.mem_append_left _ hx2
          by_cases hpos : 0 < us.length
          · simp only [if_pos hpos] at h
            have hb2 : latestBound c (jsPickLatest lt
                (MediaSync.findLatestTimestamp (us.map (mapMedia wallNow)))) :=
              jsPickLatest_bound c lt _ hb (mediaFindLatest_bound c _ hbatch)
            split at h
            · cases h; exact hb2
            · split at h
              · cases h; exact hb2
              · exact ih _ _ hpTail hb2 h
          · simp only [if_neg hpos] at h
            split at h
            · cases h; exact hb
            · split at h
              · cases h; exact hb
              · exact ih _ _ hpTail hbl h

theorem mediaSlice_bound (wallNow : Int) (batchSize apiLimit : Nat)
    (failOnLimit : Bool) (c : Int) (seen : List String) (pages : List PageFetch)
    (r : MediaSync.SliceResult)
    (hp : ∀ rec ∈ pagesRecords pages, ∀ t,
      MediaSync.recordTs (mapMedia wallNow rec) = some t → c < t)
    (h : MediaSync.fetchAndUpsertMediaBatchesInternal wallNow batchSize apiLimit
      failOnLimit seen pages = .ok r) :
    latestBound c r.latestTimestamp := by
  simp only [MediaSync.fetchAndUpsertMediaBatchesInternal] at h
  have hb0 : latestBound c ((⟨0, 0, 0, none, none, false, seen, 0⟩ :
      MediaSync.SliceState)).latestTimestamp := by
    intro t ht; simp at ht
  exact mediaSliceLoop_bound wallNow batchSize apiLimit failOnLimit c pages _ _
    hp hb0 h

theorem mediaSlice_bound_server (wallNow : Int) (batchSize apiLimit : Nat)
    (failOnLimit : Bool) (c : Int) (server : Int → Int → List PageFetch)
    (hs : serverTsAbove wallNow c server) (s e : Int) (seen : List String)
    (r : MediaSync.SliceResult)
    (h : MediaSync.fetchAndUpsertMediaBatchesInternal wallNow batchSize apiLimit
      failOnLimit seen (server s e) = .ok r) :
    latestBound c r.latestTimestamp :=
  mediaSlice_bound wallNow batchSize apiLimit failOnLimit c seen (server s e) r
    (hs s e) h

theorem hourLoop_bound (wallNow : Int) (batchSize apiLimit : Nat)
    (server : Int → Int → List PageFetch) (dayStart c : Int)
    (hs : serverTsAbove wallNow c server) :
    ∀ (hours : List Nat) (st st' : MediaSync.DateRangeState),
      latestBound c st.latestTimestamp →
      MediaSync.hourLoop wallNow batchSize apiLimit server dayStart hours st
        = .ok st' →
      latestBound c st'.latestTimestamp := by
  intro hours
  induction hours with
  | nil =>
    intro st st' hb h
    simp only [MediaSync.hourLoop] at h
    cases h; exact hb
  | cons hour hrs ih =>
    intro st st' hb h
    obtain ⟨tF, tU, lT, seen, sF⟩ := st
    simp only [MediaSync.hourLoop] at h
    split at h
    · exact absurd h (by simp)
    · rename_i hF hU hUnique hLatest hOldest hHitLimit hSeen hServer heq
      have hbs : latestBound c hLatest :=
        mediaSlice_bound_server wallNow batchSize apiLimit false c server hs _ _
          seen _ heq
      have hb2 : latestBound c (jsPickLatest lT hLatest) :=
        jsPickLatest_bound c lT hLatest hb hbs
      exact ih _ _ hb2 h

theorem dayLoop_zero (wallNow : Int) (batchSize apiLimit : Nat)
    (server : Int → Int → List PageFetch) (rangeEnd : Int) (d : Int)
    (st : MediaSync.DateRangeState) :
    MediaSync.dayLoop wallNow batchSize apiLimit server rangeEnd 0 d st
      = .ok st := rfl

theorem dayLoop_succ (wallNow : Int) (batchSize apiLimit : Nat)
    (server : Int → Int → List PageFetch) (rangeEnd : Int) (fuel : Nat)
    (d : Int) (st : MediaSync.DateRangeState) :
    MediaSync.dayLoop wallNow batchSize apiLimit server rangeEnd (fuel + 1) d st
      = MediaSync.dayStep wallNow batchSize apiLimit server rangeEnd
          (MediaSync.dayLoop wallNow batchSize apiLimit server rangeEnd fuel)
          d st := rfl

theorem dayLoop_bound (wallNow : Int) (batchSize apiLimit : Nat)
    (server : Int → Int → List PageFetch) (rangeEnd c : Int)
    (hs : serverTsAbove wallNow c server) :
    ∀ (fuel : Nat) (d : Int) (st st' : MediaSync.DateRangeState),
      latestBound c st.latestTimestamp →
      MediaSync.dayLoop wallNow batchSize apiLimit server rangeEnd fuel d st
        = .ok st' →
      latestBound c st'.latestTimestamp := by
  intro fuel
  induction fuel with
  | zero =>
    intro d st st' hb h
    rw [dayLoop_zero] at h
    cases h; exact hb
  | succ fuel ih =>
    intro d st st' hb h
    obtain ⟨tF, tU, lT, seen, sF⟩ := st
    have hbl : latestBound c lT := hb
    rw [dayLoop_succ] at h
    simp only [MediaSync.dayStep] at h
    split at h
    · split at h
      · exact absurd h (by simp)
      · rename_i rF rU rUnique rLatest rOldest rHitLimit rSeen rServer heq
        have hbs : latestBound c rLatest :=
          mediaSlice_bound_server wallNow batchSize apiLimit false c server hs _ _
            seen _ heq
        by_cases hhl : rHitLimit = true
        · simp only [if_pos hhl] at h
          split at h
          · exact absurd h (by simp)
          · rename_i st2 heq2
            have hb2 := hourLoop_bound wallNow batchSize apiLimit server _ c hs
              (List.range 24) _ _ hbl heq2
            exact ih _ _ _ hb2 h
        · simp only [if_neg hhl] at h
          have hb2 : latestBound c (jsPickLatest lT rLatest) :=
            jsPickLatest_bound c lT rLatest hbl hbs
          exact ih _ _ _ hb2 h
    · cases h; exact hb

theorem fetchMediaDailyInRange_bound (wallNow : Int) (batchSize apiLimit : Nat)
    (server : Int → Int → List PageFetch) (rangeStart rangeEnd c : Int)
    (hs : serverTsAbove wallNow c server) (seenMediaKeys : List String)
    (st' : MediaSync.DateRangeState)
    (h : MediaSync.fetchMediaDailyInRange wallNow batchSize apiLimit server
      rangeStart rangeEnd seenMediaKeys = .ok st') :
    latestBound c st'.latestTimestamp := by
  simp only [MediaSync.fetchMediaDailyInRange] at h
  have hb0 : latestBound c ((⟨0, 0, none, seenMediaKeys, []⟩ :
      MediaSync.DateRangeState)).latestTimestamp := by
    intro t ht; simp at ht
  exact dayLoop_bound wallNow batchSize apiLimit server rangeEnd c hs _ _ _ _
    hb0 h

theorem processSkippedWeeks_bound (wallNow : Int) (batchSize apiLimit : Nat)
    (server : Int → Int → List PageFetch) (c : Int)
    (hs : serverTsAbove wallNow c server) :
    ∀ (l : List (Int × Int × Nat)) (st : MediaSync.WalkState),
      latestBound c st.latestTimestamp →
      latestBound c (MediaSync.processSkippedWeeks wallNow batchSize apiLimit
        server l st).latestTimestamp := by
  intro l
  induction l with
  | nil => intro st hb; exact hb
  | cons wk rest ih =>
    intro st hb
    obtain ⟨tF, tU, lT, seen, eC, sW, wins, cLog, sF⟩ := st
    have hbl : latestBound c lT := hb
    obtain ⟨weekStart, weekEnd, n⟩ := wk
    simp only [MediaSync.processSkippedWeeks]
    split
    · exact ih _ hbl
    · rename_i dF dU dLatest dSeen dSF heq
      have hbd : latestBound c dLatest :=
        fetchMediaDailyInRange_bound wallNow batchSize apiLimit server _ _ c hs
          _ _ heq
      exact ih _ (jsPickLatest_bound c lT dLatest hbl hbd)

theorem walkLoop_bound (wallNow : Int) (batchSize apiLimit : Nat)
    (server : Int → Int → List PageFetch) (target c : Int)
    (hs : serverTsAbove wallNow c server) :
    ∀ (fuel : Nat) (s e : Int) (st st' : MediaSync.WalkState),
      latestBound c st.latestTimestamp →
      MediaSync.walkLoop wallNow batchSize apiLimit server target fuel s e st
        = .ok st' →
      latestBound c st'.latestTimestamp := by
  intro fuel
  induction fuel with
  | zero =>
    intro s e st st' hb h
    rw [walkLoop_zero] at h
    cases h; exact hb
  | succ fuel ih =>
    intro s e st st' hb h
    obtain ⟨tF, tU, lT, seen, eC, sW, wins, cLog, sF⟩ := st
    have hbl : latestBound c lT := hb
    rw [walkLoop_succ] at h
    simp only [MediaSync.walkStep] at h
    split at h
    · exact absurd h (by simp)
    · rename_i rF rU rUnique rLatest rOldest rHitLimit rSeen rServer heq
      have hbs : latestBound c rLatest :=
        mediaSlice_bound_server wallNow batchSize apiLimit false c server hs _ _
          seen _ heq
      have hb1 : latestBound c (jsPickLatest lT rLatest) :=
        jsPickLatest_bound c lT rLatest hbl hbs
      split at h
      · split at h
        · cases h; exact hb1
        · split at h
          · cases h; exact hb1
          · exact ih _ _ _ _ hb1 h
      · by_cases hhl : rHitLimit = true
        · simp only [if_pos hhl] at h
          have hb2 : latestBound c (jsPickLatest (jsPickLatest lT rLatest) rLatest) :=
            jsPickLatest_bound c _ rLatest hb1 hbs
          split at h
          · cases h; exact hb2
          · exact ih _ _ _ _ hb2 h
        · simp only [if_neg hhl] at h
          split at h
          · cases h; exact hb1
          · exact ih _ _ _ _ hb1 h

theorem fetchMediaInDateChunks_bound (wallNow : Int) (batchSize apiLimit : Nat)
    (server : Int → Int → List PageFetch) (nowH target c : Int)
    (seen : List String) (r : MediaSync.MediaRunResult)
    (hs : serverTsAbove wallNow c server)
    (h : MediaSync.fetchMediaInDateChunks wallNow batchSize apiLimit server nowH
      target seen = .ok r) :
    latestBound c r.latestTimestamp := by
  simp only [MediaSync.fetchMediaInDateChunks] at h
  split at h
  · exact absurd h (by simp)
  · rename_i st heq
    have hb0 : latestBound c ((⟨0, 0, none, seen, 0, [], [], [], []⟩ :
        MediaSync.WalkState)).latestTimestamp := by
      intro t ht; simp at ht
    have hb1 := walkLoop_bound wallNow batchSize apiLimit server target c hs
      500 _ _ _ _ hb0 heq
    have hb2 := processSkippedWeeks_bound wallNow batchSize apiLimit server c hs
      st.skippedWeeks st hb1
    rcases hps : MediaSync.processSkippedWeeks wallNow batchSize apiLimit server
        st.skippedWeeks st with ⟨pF, pU, pL, pSeen, pEC, pSW, pWins, pCLog, pSF⟩
    rw [hps] at h hb2
    cases h
    exact hb2

theorem getSyncLogRow_upsert :
    ∀ (l : List (String × SyncLogRow)) (rt : String) (row : SyncLogRow),
      getSyncLogRow (upsertSyncRow l rt row) rt = some row := by
  intro l rt row
  induction l with
  | nil => simp [upsertSyncRow, getSyncLogRow]
  | cons kr rest ih =>
    obtain ⟨k, r⟩ := kr
    by_cases hk : k = rt
    · simp [upsertSyncRow, getSyncLogRow, hk]
    · simp [upsertSyncRow, getSyncLogRow, hk, ih]

theorem c7wServer_tsAbove : serverTsAbove 0 100 c7wServer := by
  intro s e rec hrec t ht
  simp only [c7wServer] at hrec
  split at hrec
  · simp only [pagesRecords, pageRecords, List.foldr_cons, List.foldr_nil,
      List.append_nil, List.mem_singleton] at hrec
    subst hrec
    simp [MediaSync.recordTs, mapMedia, c7wRec, jsOrTs] at ht
    omega
  · simp [pagesRecords] at hrec

/-! ### Claims -/

/-- C3 counterexample: an endpoint answering HTTP 404 (a 4xx other than 429)
on every attempt is nevertheless retried: `fetchWithRetry` makes all 3
attempts with the 500 ms and 1000 ms backoff sleeps, refuting the claim that
4xx responses other than 429 are not retried (which would mean a single
attempt). -/
theorem fetchWithRetry_retries_http_404_cex :
    fetchWithRetry 3 500 http404Responses = ⟨3, [500, 1000], false⟩ ∧ 3 ≠ 1 := by
  exact ⟨rfl, by decide⟩

/-- C3 amended: every transport failure — HTTP 4xx included, with no status
discrimination — is retried identically: whenever the first two attempts
fail, `fetchWithRetry` with the source defaults makes exactly 3 attempts with
exponential backoff delays 500 ms then 1000 ms, succeeding iff the third
attempt does. -/
theorem fetchWithRetry_uniform_backoff :
    ∀ responses : Nat → FetchOutcome,
      (responses 1).isSuccess = false →
      (responses 2).isSuccess = false →
      fetchWithRetry 3 500 responses = ⟨3, [500, 1000], (responses 3).isSuccess⟩ := by
  intro responses h1 h2
  show fetchWithRetryGo 500 responses 1 (2 + 1) = _
  rw [fetchWithRetryGo_succ, h1]
  rw [fetchWithRetryGo_two 500 responses 2 h2]
  norm_num

/-- C3 amended, witness: an endpoint failing twice with 503 and succeeding on
the third attempt. -/
theorem fetchWithRetry_uniform_backoff_witness :
    (thirdTrySucceeds 1).isSuccess = false ∧
    fetchWithRetry 3 500 thirdTrySucceeds = ⟨3, [500, 1000], true⟩ :=
  ⟨rfl, fetchWithRetry_uniform_backoff thirdTrySucceeds rfl rfl⟩

/-- C8: `updateSyncLog` called with a falsy timestamp (provided the client
exists, as it does after startup) returns without raising and leaves the
persisted sync-log state unchanged. -/
theorem updateSyncLog_empty_timestamp_noop :
    ∀ (db : DbState) (resourceType : String) (wallNow : Int),
      db.supabase = true →
      updateSyncLog db resourceType none wallNow = .ok db := by
  intro db rt w h
  simp [updateSyncLog, h]

/-- C8 witness. -/
theorem updateSyncLog_empty_timestamp_noop_witness :
    (⟨true, [("IDX", ⟨1, 0⟩)]⟩ : DbState).supabase = true ∧
    updateSyncLog ⟨true, [("IDX", ⟨1, 0⟩)]⟩ "IDX" none 5 = .ok ⟨true, [("IDX", ⟨1, 0⟩)]⟩ :=
  ⟨rfl, updateSyncLog_empty_timestamp_noop ⟨true, [("IDX", ⟨1, 0⟩)]⟩ "IDX" 5 rfl⟩

/-- C10: `fetchODataPage` returns `value` as exactly the body's array (empty
when the member is absent), `next = null` when `@odata.nextLink` is absent,
and `count = null` when `@odata.count` is absent or zero. -/
theorem fetchODataPage_shape :
    ∀ d : ODataBody,
      ((fetchODataPage (some d)).value = match d.value with | some l => l | none => []) ∧
      (d.odataNextLink = none → (fetchODataPage (some d)).next = none) ∧
      (d.odataCount = none → (fetchODataPage (some d)).count = none) ∧
      (d.odataCount = some 0 → (fetchODataPage (some d)).count = none) := by
  intro d
  refine ⟨?_, ?_, ?_, ?_⟩
  · cases hv : d.value <;> simp [fetchODataPage, hv]
  all_goals intro h
  all_goals simp [fetchODataPage, h]

/-- C10 witness: a body with no `value`, no next link and `@odata.count = 0`,
and a body with an empty `value` array. -/
theorem fetchODataPage_shape_witness :
    (fetchODataPage (some ⟨none, none, some 0⟩)).count = none ∧
    (fetchODataPage (some ⟨some [], none, none⟩)).next = none ∧
    (fetchODataPage (some ⟨none, none, some 0⟩)).value = [] :=
  ⟨(fetchODataPage_shape ⟨none, none, some 0⟩).2.2.2 rfl,
   (fetchODataPage_shape ⟨some [], none, none⟩).2.1 rfl,
   (fetchODataPage_shape ⟨none, none, some 0⟩).1⟩

/-- C5 counterexample: a media slice run with `failOnLimit = true` that
receives the CapExceeded error returns normally (`Except.ok`) with
`hitLimit = true` — the saturation is only logged, never surfaced to the
caller as an error, refuting the claim for media. -/
theorem media_slice_cap_not_surfaced_cex :
    MediaSync.fetchAndUpsertMediaBatchesInternal 0 5000 100000 true [] [.capExceeded]
      = .ok ⟨0, 0, 0, none, none, true, [], 0⟩ := rfl

/-- C2 (code bug): a full media run whose newest week returns 1 record and
then saturates the cap reports `totalFetched = totalUpserted = 2`, although
the slices it executed (the walk slice plus the seven empty drill-down day
slices, logged in ghost field `sliceFetches`) fetched 1 record in total: the
saturated slice's counts are added to the run totals twice. `unique` (= 1)
and `latest_ts` (= 5) are as the claim states. -/
theorem walk_saturated_slice_double_count :
    c2Run = .ok ⟨2, 2, 1, some 5, [(-144, 24)], [(1, 1, 0)], [1, 0, 0, 0, 0, 0, 0, 0]⟩ ∧
    List.sum [1, 0, 0, 0, 0, 0, 0, 0] = 1 := ⟨rfl, rfl⟩

/-- C4 counterexample: the same double-count makes the successful media run
against `c4Server` return `totalUpserted = 2 > totalUnique = 1`, refuting
`upserted ≤ unique` for media resource runs. -/
theorem media_run_upserted_exceeds_unique_cex :
    c4Run = .ok ⟨2, 2, 1, some 7, [(-144, 24)], [(1, 1, 0)], [1, 0, 0, 0, 0, 0, 0, 0]⟩ ∧
    ¬(2 ≤ 1) := ⟨rfl, by decide⟩

/-- C1 counterexample: with `now = 0` and `floor = -200` (hours), the walk
processes only the window `[-144, 24)`: when the advance step computes
`start = -312 ≤ floor`, the walk stops immediately — it neither clamps the
start to the floor nor processes a final clamped window — so the instant
`-150 ∈ [floor, now + 1d)` is covered by no processed window. -/
theorem walk_floor_clamp_cex :
    MediaSync.fetchMediaInDateChunks 0 1 100000 emptyServer 0 (-200) []
      = .ok ⟨0, 0, 0, none, [(-144, 24)], [(0, 0, 1)], [0]⟩ ∧
    ((-200 : Int) ≤ -150 ∧ (-150 : Int) < 0 + 24) ∧
    windowCovers [(-144, 24)] (-150) = false := ⟨rfl, by decide, by decide⟩

/-- C6 counterexample: the second weekly window's server response contains
one record, but it is a duplicate of a record seen in the first window, so
the slice's `totalFetched` is 0 and the walk increments the consecutive-empty
counter (ghost `chunkLog` entry `(1, 0, 1)`: server returned 1 record, slice
counted 0 fetched, counter became 1) instead of resetting it to zero. -/
theorem walk_empty_counter_duplicates_cex :
    c6Run = .ok ⟨1, 1, 1, some 3, [(-144, 24), (-312, -144)],
      [(1, 1, 0), (1, 0, 1)], [1, 0]⟩ ∧
    resetsOnServerRecords [(1, 1, 0), (1, 0, 1)] = false := ⟨rfl, by decide⟩

/-- C7 counterexample: a full media run over a database whose MEDIA
checkpoint is 100 fetches one record timestamped 50 and overwrites the
checkpoint with 50 < 100: the newly written checkpoint is smaller than the
one stored before the run. -/
theorem checkpoint_regression_cex :
    getSyncLog c7Db "MEDIA" = .ok (some 100) ∧
    processMedia 0 2 100000 c7Server 0 (-3000) c7Db
      = ⟨true, [("MEDIA", ⟨50, 0⟩)]⟩ ∧
    (50 : Int) < 100 := ⟨rfl, rfl, by decide⟩

/-- C9: in both dedup passes, every record forwarded to the upserter (the
`uniqueRecords` list, which is exactly what the slice maps and upserts) has
truthy conflict-key components; a record with a missing or empty component is
counted as a duplicate (each batch record is either unique or counted, so
`uniques + duplicates = batch size`); and every key in the resulting dedup
set either was there before or is the composite/listing key of a forwarded
record — so a key-less record adds nothing to the set. -/
theorem dedup_missing_key_skipped :
    ∀ (seen : List String) (value : List RawRecord),
      ((∀ x ∈ (MediaSync.dedupMedia seen value).1,
          jsTruthy x.ResourceRecordKey = true ∧ jsTruthy x.MediaKey = true) ∧
        (MediaSync.dedupMedia seen value).1.length
            + (MediaSync.dedupMedia seen value).2.1 = value.length ∧
        (∀ k ∈ (MediaSync.dedupMedia seen value).2.2,
            k ∈ seen ∨ ∃ u ∈ (MediaSync.dedupMedia seen value).1,
              k = MediaSync.mediaCompositeKey u)) ∧
      ((∀ x ∈ (PropertySync.dedupListings seen value).1,
          jsTruthy x.ListingKey = true) ∧
        (PropertySync.dedupListings seen value).1.length
            + (PropertySync.dedupListings seen value).2.1 = value.length ∧
        (∀ k ∈ (PropertySync.dedupListings seen value).2.2,
            k ∈ seen ∨ ∃ u ∈ (PropertySync.dedupListings seen value).1,
              k = u.ListingKey.getD "")) :=
  fun seen value => ⟨dedupMedia_facts value seen, dedupListings_facts value seen⟩

/-- C9 witness: a batch holding a record without `MediaKey` followed by a
well-keyed record — one unique, one duplicate, and the forwarded record has
truthy keys. -/
theorem dedup_missing_key_skipped_witness :
    (MediaSync.dedupMedia [] [noKeyRec, c2Rec]).1.length
        + (MediaSync.dedupMedia [] [noKeyRec, c2Rec]).2.1 = 2 ∧
    (jsTruthy c2Rec.ResourceRecordKey = true ∧ jsTruthy c2Rec.MediaKey = true) :=
  ⟨(dedup_missing_key_skipped [] [noKeyRec, c2Rec]).1.2.1,
   (dedup_missing_key_skipped [] [noKeyRec, c2Rec]).1.1 c2Rec (by decide)⟩

/-- C5 amended: whenever a slice's page fetch raises CapExceeded (and the
100k pre-check did not already stop the loop), the listings slice with
`fail_on_cap = true` surfaces it upward as the unexpected-saturation error,
but the media slice only logs: it returns normally with `hit_limit = true`
and does not surface any signal to its caller. -/
theorem slice_cap_behavior :
    ∀ (wallNow : Int) (batchSize apiLimit : Nat)
      (stP : PropertySync.SliceState) (stM : MediaSync.SliceState)
      (restP restM : List PageFetch),
      ¬(apiLimit < stP.skip + batchSize ∧ apiLimit ≤ stP.skip) →
      ¬(apiLimit < stM.skip + batchSize ∧ apiLimit ≤ stM.skip) →
      PropertySync.sliceLoop wallNow batchSize apiLimit true
          (.capExceeded :: restP) stP = .error .capUnexpected ∧
      MediaSync.sliceLoop wallNow batchSize apiLimit true
          (.capExceeded :: restM) stM
        = .ok (MediaSync.mkSliceResult ⟨stM.totalFetched, stM.totalUpserted,
            stM.skip, stM.latestTimestamp, stM.oldestTimestamp, true,
            stM.seenMediaKeys, stM.serverCount⟩) := by
  intro wallNow batchSize apiLimit stP stM restP restM hP hM
  obtain ⟨f1, u1, sk1, lt1, ot1, hl1, seen1, sc1⟩ := stP
  obtain ⟨f2, u2, sk2, lt2, ot2, hl2, seen2, sc2⟩ := stM
  constructor
  · simp only [PropertySync.sliceLoop]
    rw [if_neg]
    all_goals first | rfl | exact hP
  · simp only [MediaSync.sliceLoop]
    rw [if_neg]
    all_goals first | rfl | exact hM

/-- C5 amended, witness. -/
theorem slice_cap_behavior_witness :
    PropertySync.sliceLoop 0 5000 100000 true [.capExceeded]
        ⟨0, 0, 0, none, none, false, [], 0⟩ = .error .capUnexpected ∧
    MediaSync.sliceLoop 0 5000 100000 true [.capExceeded]
        ⟨0, 0, 0, none, none, false, [], 0⟩
      = .ok (MediaSync.mkSliceResult ⟨0, 0, 0, none, none, true, [], 0⟩) :=
  slice_cap_behavior 0 5000 100000 ⟨0, 0, 0, none, none, false, [], 0⟩
    ⟨0, 0, 0, none, none, false, [], 0⟩ [] [] (by decide) (by decide)

/-- C1 amended: the media walk never clamps.  Its processed windows (ghost
field `windows`) form a backward chain: the first is
`[now + 1d − 7d, now + 1d)`, each later window is the adjacent older 7-day
window, and a window after the first is processed only when its start lies
strictly after `floor_date` — when the advance computes a start at or before
the floor, the walk stops without processing that final window, so the
processed span is `[last_start, now + 1d)` and the tail
`[floor_date, last_start)` can be left uncovered. -/
theorem walk_windows_backward_chain :
    ∀ (wallNow : Int) (batchSize apiLimit : Nat)
      (server : Int → Int → List PageFetch) (nowH targetStartDate : Int)
      (seen : List String) (r : MediaSync.MediaRunResult),
      MediaSync.fetchMediaInDateChunks wallNow batchSize apiLimit server nowH
          targetStartDate seen = .ok r →
      backwardChain targetStartDate (nowH + 24 - 24 * 7) (nowH + 24) r.windows := by
  intro w b a srv nowH t seen r h
  simp only [MediaSync.fetchMediaInDateChunks] at h
  split at h
  · exact absurd h (by simp)
  · rename_i st heq
    cases h
    obtain ⟨ws, log, hw, hc, -, -⟩ := walkLoop_ghost w b a srv t 500 _ _ _ _ heq
    simp only [List.nil_append] at hw
    show backwardChain t (nowH + 24 - 24 * 7) (nowH + 24)
      (MediaSync.processSkippedWeeks w b a srv st.skippedWeeks st).windows
    rw [(processSkippedWeeks_ghost w b a srv st.skippedWeeks st).1, hw]
    exact hc

/-- C1 amended, witness: the run of `walk_floor_clamp_cex` processes exactly
the single window `[-144, 24)`. -/
theorem walk_windows_backward_chain_witness :
    backwardChain (-200) (0 + 24 - 24 * 7) (0 + 24) [(-144, 24)] :=
  walk_windows_backward_chain 0 1 100000 emptyServer 0 (-200) []
    ⟨0, 0, 0, none, [(-144, 24)], [(0, 0, 1)], [0]⟩ rfl

/-- C6 amended: the walk's consecutive-empty counter (ghost `chunkLog`,
entries `(serverCount, sliceFetched, emptyAfter)`) obeys: the counter becomes
`previous + 1` exactly when the slice's `totalFetched` is 0 — which counts
server records only from pages that contributed a new unique record, so an
all-duplicates window also increments it — becomes 0 otherwise, and an entry
reaching 10 is the walk's last chunk. -/
theorem walk_empty_counter_spec :
    ∀ (wallNow : Int) (batchSize apiLimit : Nat)
      (server : Int → Int → List PageFetch) (nowH targetStartDate : Int)
      (seen : List String) (r : MediaSync.MediaRunResult),
      MediaSync.fetchMediaInDateChunks wallNow batchSize apiLimit server nowH
          targetStartDate seen = .ok r →
      counterSpec 0 r.chunkLog := by
  intro w b a srv nowH t seen r h
  simp only [MediaSync.fetchMediaInDateChunks] at h
  split at h
  · exact absurd h (by simp)
  · rename_i st heq
    cases h
    obtain ⟨ws, log, -, -, hl, hcs⟩ := walkLoop_ghost w b a srv t 500 _ _ _ _ heq
    simp only [List.nil_append] at hl
    show counterSpec 0
      (MediaSync.processSkippedWeeks w b a srv st.skippedWeeks st).chunkLog
    rw [(processSkippedWeeks_ghost w b a srv st.skippedWeeks st).2, hl]
    exact hcs

set_option maxHeartbeats 2000000 in
/-- C6 amended, witness: the log of the duplicate-record run (two chunks, the
second all-duplicates). -/
theorem walk_empty_counter_spec_witness :
    counterSpec 0 [(1, 1, 0), (1, 0, 1)] :=
  walk_empty_counter_spec 0 2 100000 c6Server 0 (-400) []
    ⟨1, 1, 1, some 3, [(-144, 24), (-312, -144)], [(1, 1, 0), (1, 0, 1)], [1, 0]⟩
    (by rfl)

/-- C4 amended: every successfully completing property (IDX/VOW) run — the
initial un-windowed slice optionally followed by the backward date-chunk walk,
all sharing one dedup set — satisfies `unique ≤ fetched` and
`upserted ≤ unique`.  (The media pipeline violates both, because the walk
double-counts cap-saturated slices; see the counterexample.) -/
theorem property_run_totals_invariant :
    ∀ (wallNow : Int) (batchSize apiLimit : Nat) (firstPages : List PageFetch)
      (server : Int → Int → List PageFetch) (nowH : Int) (expectedRecords : Nat)
      (res : PropertySync.RunResult),
      PropertySync.fetchWithSmartPagination wallNow batchSize apiLimit firstPages
          server nowH expectedRecords = .ok res →
      res.totalUnique ≤ res.totalFetched ∧ res.totalUpserted ≤ res.totalUnique := by
  intro wallNow batchSize apiLimit firstPages server nowH expectedRecords res h
  simp only [PropertySync.fetchWithSmartPagination] at h
  split at h
  · exact absurd h (by simp)
  · rename_i fF fU fUnique fLatest fOldest fHitLimit fSeen fServer heq
    have hf := sliceLoop_totals wallNow batchSize apiLimit false firstPages
      ⟨0, 0, 0, none, none, false, [], 0⟩
      ⟨fF, fU, fUnique, fLatest, fOldest, fHitLimit, fSeen, fServer⟩ heq
    simp only [List.length_nil] at hf
    obtain ⟨hf1, hf2, hf3⟩ := hf
    split at h
    · -- continue with date chunks
      split at h
      · exact absurd h (by simp)
      · rename_i oF oU oLatest oSeen heq2
        simp only [PropertySync.fetchOlderRecordsInChunks] at heq2
        have ho := chunksLoop_totals wallNow batchSize apiLimit server
          expectedRecords 50 _ _ _ ⟨oF, oU, oLatest, oSeen⟩ heq2
        simp only at ho
        obtain ⟨ho1, ho2, ho3⟩ := ho
        cases h
        dsimp only
        refine ⟨by omega, by omega⟩
    · cases h
      dsimp only
      refine ⟨by omega, by omega⟩

/-- C4 amended, witness: a short single-page IDX-style run. -/
theorem property_run_totals_invariant_witness :
    PropertySync.fetchWithSmartPagination 0 2 100000 [.ok [c4wRec]] emptyServer 0
        100000 = .ok ⟨1, 1, 1, some 1⟩ ∧
    (1 ≤ 1 ∧ 1 ≤ 1) :=
  ⟨by rfl,
   property_run_totals_invariant 0 2 100000 [.ok [c4wRec]] emptyServer 0 100000
     ⟨1, 1, 1, some 1⟩ (by rfl)⟩

/-- C7 amended: the coordinator overwrites the MEDIA checkpoint with the
run's `latestTimestamp` without comparing it to the stored value, but when
every record the server returns carries an effective timestamp strictly
above the stored checkpoint `c` — the guarantee an honored incremental
`gt c` filter provides — any checkpoint readable after `processMedia` is at
least `c`: an untouched checkpoint stays `c`, and an overwritten one is some
fetched record's timestamp, which exceeds `c`. -/
theorem checkpoint_monotone_when_records_newer :
    ∀ (wallNow : Int) (batchSize apiLimit : Nat)
      (server : Int → Int → List PageFetch) (nowH targetStartDate c : Int)
      (db : DbState),
      db.supabase = true →
      getSyncLog db "MEDIA" = .ok (some c) →
      serverTsAbove wallNow c server →
      ∀ c2, getSyncLog (processMedia wallNow batchSize apiLimit server nowH
          targetStartDate db) "MEDIA" = .ok (some c2) →
        c ≤ c2 := by
  intro wallNow batchSize apiLimit server nowH target c db hsup hold hs c2 hnew
  simp only [processMedia] at hnew
  split at hnew
  · rw [hold] at hnew
    simp only [Except.ok.injEq, Option.some.injEq] at hnew
    omega
  · rename_i result heq
    split at hnew
    · rw [hold] at hnew
      simp only [Except.ok.injEq, Option.some.injEq] at hnew
      omega
    · rename_i ts hts
      simp only [MediaSync.fetchMediaRecordsFull] at heq
      have hbr : latestBound c result.latestTimestamp :=
        fetchMediaInDateChunks_bound wallNow batchSize apiLimit server nowH
          target c [] result hs heq
      have hc : c < ts := hbr ts hts
      split at hnew
      · rename_i e heq2
        simp [updateSyncLog, hsup] at heq2
      · rename_i db1 heq2
        simp [updateSyncLog, hsup] at heq2
        subst heq2
        simp [getSyncLog, hsup, getSyncLogRow_upsert] at hnew
        omega

/-- C7 amended, witness: a database whose MEDIA checkpoint is 100 and a
server whose only record is timestamped 150: after the run the checkpoint
reads 150 ≥ 100. -/
theorem checkpoint_monotone_when_records_newer_witness :
    (c7Db.supabase = true ∧
      getSyncLog c7Db "MEDIA" = .ok (some 100) ∧
      serverTsAbove 0 100 c7wServer ∧
      getSyncLog (processMedia 0 2 100000 c7wServer 0 (-200) c7Db) "MEDIA"
        = .ok (some 150)) ∧
    (100 : Int) ≤ 150 :=
  ⟨⟨rfl, rfl, c7wServer_tsAbove, by rfl⟩,
   checkpoint_monotone_when_records_newer 0 2 100000 c7wServer 0 (-200) 100 c7Db
     rfl rfl c7wServer_tsAbove 150 (by rfl)⟩

end RealEstateSync
